import Mathlib

/-!
Verification of the student-intelligence pipeline.

Shallow embedding of the core of the `ai-student-intelligence` repository:
the tabular storage layer (`storage/google_sheets.py`), the validation
stage (`analytics/validators.py`), the pure metric functions
(`analytics/metrics.py`), the narrative stage (`llm/summary_generator.py`)
and the per-student consolidation stage
(`insights/student_consolidator.py`).

Modelling conventions:
* spreadsheet cells are strings; the whole store is a partial map from
  table names to the list of stored rows (`Store`);
* a pandas cell is `Option String` (`none` models the non-finite floats
  NaN and ±inf that `_sanitize_df` replaces with the empty string);
* numeric values are exact rationals, instants are integers;
* external library functions (pandas string parsing, `json.loads`,
  `json.dumps`, the network backends) are taken as explicit function
  parameters, while all repository code is embedded concretely.
-/

set_option maxHeartbeats 1000000

namespace AIStudent

/-! ### Generic helpers -/

/-- Index of the first occurrence of a string in a list, if any. -/
def idxOf? : List String → String → Option Nat
  | [], _ => none
  | c :: cs, k => if c = k then some 0 else (idxOf? cs k).map (· + 1)

/-- Boolean membership through decidable equality (Python `in`,
pandas `.isin`). -/
def memB {α : Type} [DecidableEq α] (x : α) (l : List α) : Bool :=
  l.any (fun y => y = x)

/-- Boolean duplicate-freeness of a list. -/
def nodupB {α : Type} [DecidableEq α] : List α → Bool
  | [] => true
  | x :: xs => (!memB x xs) && nodupB xs

/-- Truncation toward zero, the semantics of Python `int()` on a float. -/
def truncQ (q : ℚ) : ℤ := if q < 0 then ⌈q⌉ else ⌊q⌋

/-- Round-half-to-even (banker's rounding), the semantics of Python
`round` on an exact value. -/
def roundHalfEven {α : Type} [LinearOrderedField α] [FloorRing α] (x : α) : ℤ :=
  let f : ℤ := ⌊x⌋
  let r : α := x - f
  if r < 1/2 then f
  else if 1/2 < r then f + 1
  else if f % 2 = 0 then f else f + 1

/-- Python `round(x, dp)`. -/
def pyRound {α : Type} [LinearOrderedField α] [FloorRing α] (dp : ℕ) (x : α) : α :=
  (roundHalfEven (x * 10 ^ dp) : α) / 10 ^ dp

/-! ### `analytics/metrics.py` — pure metric functions

Score sequences are chronologically ordered lists of exact rationals.
`iloc[-1]` / `iloc[0]` are only reached by the source when the series has
at least two entries, so the defaults below never fire on those paths. -/

/-- Population mean of a list of rationals (`np.mean`). -/
def listMean (l : List ℚ) : ℚ := l.sum / l.length

/-- Population variance of a list of rationals (the square of `np.std`). -/
def popVariance (l : List ℚ) : ℚ :=
  ((l.map (fun x => (x - listMean l) ^ 2)).sum) / l.length

/-- Population standard deviation, `np.std`, as an exact real. -/
noncomputable def popStd (l : List ℚ) : ℝ := Real.sqrt (popVariance l)

/-- `calculate_trend(scores)` from `analytics/metrics.py`. -/
def calculate_trend (scores : List ℚ) : String :=
  if scores.length < 2 then "insufficient_data"
  else
    let diff := (scores.getLast?.getD 0) - (scores.head?.getD 0)
    if diff > 5 then "improving"
    else if diff < -5 then "declining"
    else "stable"

/-- `improvement_velocity(scores)` from `analytics/metrics.py`. -/
def improvement_velocity (scores : List ℚ) : ℚ :=
  if scores.length < 2 then 0
  else pyRound 2 (((scores.getLast?.getD 0) - (scores.head?.getD 0)) / scores.length)

/-- `consistency_score(scores)` from `analytics/metrics.py`; the standard
deviation is an exact real, so the value lives in `ℝ`. -/
noncomputable def consistency_score (scores : List ℚ) : ℝ :=
  if scores.length < 2 then 1
  else pyRound 3 (1 / (1 + popStd scores))

/-- `performance_band(avg_score)` from `analytics/metrics.py`. -/
def performance_band (avg_score : ℚ) : String :=
  if avg_score < 60 then "low"
  else if avg_score < 80 then "medium"
  else "high"

/-- `volatility_level(scores)` from `analytics/metrics.py`. -/
noncomputable def volatility_level (scores : List ℚ) : String :=
  if scores.length < 2 then "unknown"
  else
    let std := popStd scores
    if std < 5 then "low"
    else if std < 10 then "medium"
    else "high"

/-- `recent_average(scores, window=2)` from `analytics/metrics.py`. -/
def recent_average (scores : List ℚ) (window : ℕ := 2) : ℚ :=
  if scores.length < window then pyRound 2 (listMean scores)
  else pyRound 2 (listMean (scores.drop (scores.length - window)))

/-- `risk_flag(avg_score, trend)` from `analytics/metrics.py`. -/
def risk_flag (avg_score : ℚ) (trend : String) : String :=
  if avg_score < 60 ∧ trend = "declining" then "high"
  else if avg_score < 60 ∨ trend = "declining" then "medium"
  else "low"

/-- `data_confidence(attempt_count)` from `analytics/metrics.py`. -/
def data_confidence (attempt_count : ℕ) : String :=
  if attempt_count ≥ 5 then "high"
  else if attempt_count ≥ 3 then "medium"
  else "low"

/-! ### `storage/google_sheets.py` — the tabular store

A worksheet is a list of rows of string cells; the spreadsheet maps a
table name to its worksheet when one exists.  A pandas frame (`DF`)
carries a header and positional rows of cells, a cell being `none` when
it holds a non-finite float. -/

/-- A pandas cell: `none` models NaN / ±inf. -/
abbrev Cell := Option String

/-- A pandas `DataFrame`: column names plus positional rows. -/
structure DF where
  columns : List String
  rows : List (List Cell)
deriving DecidableEq

/-- The spreadsheet: table name to stored rows, `none` when the
worksheet does not exist. -/
abbrev Store := String → Option (List (List String))

/-- Cell of a row under a named column (first occurrence of the name);
`none` when the column is absent or the row is too short.  Where pandas
would raise a `KeyError` instead, callers check membership first. -/
def cellAt (cols : List String) (row : List Cell) (c : String) : Cell :=
  match idxOf? cols c with
  | none => none
  | some i => (row.get? i).join

/-- Key tuple of a row under a list of key columns
(`df[key_columns].apply(tuple, axis=1)`). -/
def keyTuple (cols : List String) (keys : List String) (row : List Cell) : List Cell :=
  keys.map (cellAt cols row)

/-- `_sanitize_df` cell-wise: NaN and ±inf become the empty string. -/
def sanitizeCell : Cell → Cell
  | none => some ""
  | some s => some s

/-- `_sanitize_df(df)` from `storage/google_sheets.py` (the `df.empty`
early return is the identity on our representation). -/
def sanitize_df (df : DF) : DF :=
  ⟨df.columns, df.rows.map (fun r => r.map sanitizeCell)⟩

/-- `read_table(spreadsheet, table_name)`: raises `WorksheetNotFound`
for an absent table (gspread `Spreadsheet.worksheet`); otherwise the
first stored row is the header and the rest are the data rows, with an
empty frame when fewer than two rows are stored. -/
def read_table (store : Store) (name : String) : Except String DF :=
  match store name with
  | none => .error ("WorksheetNotFound: " ++ name)
  | some values =>
    match values with
    | header :: row :: rest => .ok ⟨header, (row :: rest).map (fun r => r.map some)⟩
    | _ => .ok ⟨[], []⟩

/-- Stored form of one row (cells as written to the sheet; only
reached after `_sanitize_df`, so `none` never survives). -/
def storedRow (r : List Cell) : List String :=
  r.map (fun c => c.getD "")

/-- Stored form of the data rows of a frame. -/
def storedRows (df : DF) : List (List String) :=
  df.rows.map storedRow

/-- `write_table(spreadsheet, table_name, df)`: full overwrite, header
first (creating the worksheet when absent). -/
def write_table (store : Store) (name : String) (df : DF) : Store :=
  let df := sanitize_df df
  fun n => if n = name then some (df.columns :: storedRows df) else store n

/-- `append_table(spreadsheet, table_name, df)`: no-op on an empty
frame; rewrite when the worksheet is new or its first row differs from
the incoming header; otherwise append the rows beneath it. -/
def append_table (store : Store) (name : String) (df : DF) : Store :=
  if df.rows.isEmpty then store
  else
    let df := sanitize_df df
    let values := (store name).getD []
    if values.head? ≠ some df.columns then
      fun n => if n = name then some (df.columns :: storedRows df) else store n
    else
      fun n => if n = name then some (values ++ storedRows df) else store n

/-- `pd.concat([a, b], ignore_index=True)`: with equal headers the rows
are appended; otherwise the columns are unioned in order of appearance
and each row is re-indexed, missing cells becoming NaN. -/
def concatDF (a b : DF) : DF :=
  if a.columns = b.columns then ⟨a.columns, a.rows ++ b.rows⟩
  else
    let cols := a.columns ++ b.columns.filter (fun c => ¬ memB c a.columns)
    ⟨cols,
      a.rows.map (fun r => cols.map (cellAt a.columns r)) ++
      b.rows.map (fun r => cols.map (cellAt b.columns r))⟩

/-- The `try read_table ... except: empty` prologue of `upsert_table`. -/
def readOrEmpty (store : Store) (name : String) : DF :=
  match read_table store name with
  | .ok t => t
  | .error _ => ⟨[], []⟩

/-- `upsert_table(spreadsheet, table_name, df, key_columns)` from
`storage/google_sheets.py`: sanitize, behave like `write_table` when the
existing table is empty, otherwise drop existing rows whose key tuple
occurs among the incoming ones, append the incoming rows and rewrite.
A key column absent from either frame is pandas `KeyError`. -/
def upsert_table (store : Store) (name : String) (df : DF)
    (key_columns : List String) : Except String Store :=
  let df := sanitize_df df
  let existing := readOrEmpty store name
  if existing.rows.isEmpty then .ok (write_table store name df)
  else if ¬ key_columns.all (fun c => memB c existing.columns) then .error "KeyError"
  else if ¬ key_columns.all (fun c => memB c df.columns) then .error "KeyError"
  else
    let incomingKeys := df.rows.map (keyTuple df.columns key_columns)
    let cleaned := existing.rows.filter
      (fun r => ¬ memB (keyTuple existing.columns key_columns r) incomingKeys)
    let final := concatDF ⟨existing.columns, cleaned⟩ df
    .ok (write_table store name (sanitize_df final))

/-! ### Storage-layer lemma toolkit -/

theorem memB_eq_true {α : Type} [DecidableEq α] {x : α} {l : List α} :
    memB x l = true ↔ x ∈ l := by
  simp only [memB, List.any_eq_true, decide_eq_true_eq]
  constructor
  · rintro ⟨y, hy, rfl⟩
    exact hy
  · intro hx
    exact ⟨x, hx, rfl⟩

theorem nodupB_eq_true {α : Type} [DecidableEq α] {l : List α} :
    nodupB l = true ↔ l.Nodup := by
  induction l with
  | nil => simp [nodupB]
  | cons a t ih =>
    simp only [nodupB, Bool.and_eq_true, Bool.not_eq_true', List.nodup_cons, ih]
    constructor
    · rintro ⟨h1, h2⟩
      refine ⟨fun hm => ?_, h2⟩
      rw [← memB_eq_true (x := a) (l := t)] at hm
      rw [hm] at h1
      cases h1
    · rintro ⟨h1, h2⟩
      refine ⟨?_, h2⟩
      cases hmb : memB a t with
      | false => rfl
      | true => exact absurd (memB_eq_true.mp hmb) h1

theorem idxOf?_isSome_of_mem {cols : List String} {c : String} (h : c ∈ cols) :
    (idxOf? cols c).isSome := by
  induction cols with
  | nil => cases h
  | cons a t ih =>
    unfold idxOf?
    by_cases hac : a = c
    · simp [hac]
    · rcases List.mem_cons.mp h with rfl | hm
      · exact absurd rfl hac
      · rw [if_neg hac]
        cases hj : idxOf? t c with
        | none => exact absurd (ih hm) (by simp [hj])
        | some j => simp

theorem idxOf?_lt_length {cols : List String} {c : String} {i : ℕ}
    (h : idxOf? cols c = some i) : i < cols.length := by
  induction cols generalizing i with
  | nil => cases h
  | cons a t ih =>
    unfold idxOf? at h
    by_cases hac : a = c
    · rw [if_pos hac] at h
      injection h with h
      subst h
      simp
    · rw [if_neg hac] at h
      cases hj : idxOf? t c with
      | none => rw [hj] at h; cases h
      | some j =>
        simp only [hj, Option.map_some'] at h
        injection h with h
        have := ih hj
        simp only [List.length_cons]
        omega

theorem idxOf?_get? {cols : List String} {c : String} {i : ℕ}
    (h : idxOf? cols c = some i) : cols.get? i = some c := by
  induction cols generalizing i with
  | nil => cases h
  | cons a t ih =>
    unfold idxOf? at h
    by_cases hac : a = c
    · rw [if_pos hac] at h
      injection h with h
      subst h
      simpa using hac
    · rw [if_neg hac] at h
      cases hj : idxOf? t c with
      | none => rw [hj] at h; cases h
      | some j =>
        simp only [hj, Option.map_some'] at h
        injection h with h
        subst h
        simpa using ih hj

theorem idxOf?_append_left {as bs : List String} {c : String} (h : c ∈ as) :
    idxOf? (as ++ bs) c = idxOf? as c := by
  induction as with
  | nil => cases h
  | cons a t ih =>
    unfold idxOf?
    by_cases hac : a = c
    · simp [hac]
    · rcases List.mem_cons.mp h with rfl | hm
      · exact absurd rfl hac
      · simp only [List.cons_append, if_neg hac, ih hm]

/-- The named cell is the joined positional cell at the column index. -/
theorem cellAt_eq_of_idx {cols : List String} {c : String} {i : ℕ}
    (h : idxOf? cols c = some i) (r : List Cell) :
    cellAt cols r c = (r.get? i).join := by
  unfold cellAt
  rw [h]

/-- Re-indexing a row to new columns preserves every named cell that the
new column list mentions. -/
theorem cellAt_reindex {old new : List String} {r : List Cell} {c : String}
    (h : c ∈ new) :
    cellAt new (new.map (cellAt old r)) c = cellAt old r c := by
  cases hidx : idxOf? new c with
  | none =>
    exact absurd (idxOf?_isSome_of_mem h) (by simp [hidx])
  | some i =>
    rw [cellAt_eq_of_idx hidx, List.get?_map, idxOf?_get? hidx]
    rfl

/-- Sanitising a row rewrites every in-range named cell by
`sanitizeCell`. -/
theorem cellAt_sanitizeRow {cols : List String} {r : List Cell} {c : String}
    {i : ℕ} (hidx : idxOf? cols c = some i) (hlen : i < r.length) :
    cellAt cols (r.map sanitizeCell) c = sanitizeCell (cellAt cols r c) := by
  rw [cellAt_eq_of_idx hidx, cellAt_eq_of_idx hidx, List.get?_map]
  cases hr : r.get? i with
  | none =>
    exact absurd (List.get?_eq_none.mp hr) (by omega)
  | some cell => rfl

/-- Lifting a stored row back to cells equals sanitising the original
row. -/
theorem lift_storedRow (r : List Cell) :
    (storedRow r).map some = r.map sanitizeCell := by
  unfold storedRow
  rw [List.map_map]
  exact List.map_congr_left (fun c _ => by cases c <;> rfl)

/-- Storing a sanitised row equals storing the raw row. -/
theorem storedRow_sanitize (r : List Cell) :
    storedRow (r.map sanitizeCell) = storedRow r := by
  unfold storedRow
  rw [List.map_map]
  exact List.map_congr_left (fun c _ => by cases c <;> rfl)

/-- Sanitising is idempotent cell-wise. -/
theorem sanitizeCell_sanitizeCell (c : Cell) :
    sanitizeCell (sanitizeCell c) = sanitizeCell c := by
  cases c <;> rfl

/-- A write leaves every other table untouched. -/
theorem write_table_other (store : Store) (name : String) (df : DF)
    {n : String} (h : n ≠ name) : write_table store name df n = store n := by
  unfold write_table
  simp [h]

/-- An append leaves every other table untouched. -/
theorem append_table_other (store : Store) (name : String) (df : DF)
    {n : String} (h : n ≠ name) : append_table store name df n = store n := by
  simp only [append_table]
  split_ifs <;> simp [h]

/-- Reading back a freshly written table yields the sanitised frame
(empty when the frame had no rows). -/
theorem readOrEmpty_write (store : Store) (name : String) (df : DF) :
    readOrEmpty (write_table store name df) name =
      if df.rows.isEmpty then ⟨[], []⟩ else sanitize_df df := by
  have hw : write_table store name df name
      = some ((sanitize_df df).columns :: storedRows (sanitize_df df)) := by
    simp [write_table]
  have hper : ∀ ρ : List Cell,
      (storedRow (ρ.map sanitizeCell)).map some = ρ.map sanitizeCell := by
    intro ρ
    rw [storedRow_sanitize, lift_storedRow]
  unfold readOrEmpty read_table
  rw [hw]
  cases hrows : df.rows with
  | nil => simp [sanitize_df, storedRows, hrows]
  | cons r rest =>
    simp only [sanitize_df, storedRows, hrows, List.map_cons, List.map_map,
      List.isEmpty_cons, Bool.false_eq_true, if_false]
    congr 1
    refine List.cons_eq_cons.mpr ⟨hper r, ?_⟩
    exact List.map_congr_left (fun ρ _ => hper ρ)

/-! ### Claim C7 -/

/-- The tabular read contract in the words of the spec, amended: an
absent table is a `WorksheetNotFound` error (not an empty result);
a table with fewer than a header plus one data row reads as the empty
frame; otherwise the first stored row is the header and the remainder
are the data rows. -/
def readTableSpec (store : Store) (name : String) : Except String DF :=
  match store name with
  | none => .error ("WorksheetNotFound: " ++ name)
  | some values =>
    if h : values.length < 2 then .ok ⟨[], []⟩
    else .ok ⟨values.head (by rintro rfl; simp at h),
              (values.tail).map (fun r => r.map some)⟩

/-- C7 (amended): `read_table` realises the amended contract — error on
an absent table, empty frame below two stored rows, header plus data
rows otherwise. -/
theorem C7_read_table_contract (store : Store) (name : String) :
    read_table store name = readTableSpec store name := by
  unfold read_table readTableSpec
  cases hv : store name with
  | none => rfl
  | some values =>
    match values with
    | [] => rfl
    | [h] => rfl
    | h :: r :: rest => rfl

/-- C7 counterexample: on a store with no tables at all, `read_table`
does not return an empty result (it raises `WorksheetNotFound`),
refuting the claim that an absent table reads as empty. -/
theorem C7_absent_table_not_empty :
    read_table (fun _ => none) "raw_student_scores" ≠ .ok ⟨[], []⟩ := by
  simp [read_table]

/-! ### `analytics/validators.py` — Phase 0 validation

Raw cells are read from the sheet as strings; `coerce_types` turns them
into typed values through the pandas parsers, which are external library
functions and therefore taken as parameters (`toNumeric` models
`pd.to_numeric(errors="coerce")`, `toDatetime` models
`pd.to_datetime(errors="coerce")`, both yielding `none` for an
unparseable value). -/

def REQUIRED_COLUMNS : List String :=
  ["student_id", "grade", "subject", "exam_id", "exam_type",
   "attempt_number", "score", "max_score", "exam_date"]

def ALLOWED_EXAM_TYPES : List String := ["mock", "real"]

/-- Python `str.strip()`: drop leading and trailing whitespace. -/
def pyStrip (s : String) : String :=
  String.mk (((s.toList.dropWhile Char.isWhitespace).reverse.dropWhile
    Char.isWhitespace).reverse)

/-- A pandas timestamp: a wall-clock instant together with an optional
fixed UTC offset; `none` offset means a naive timestamp. -/
structure PdTimestamp where
  wall : Int
  tzOffset : Option Int
deriving DecidableEq

/-- UTC normalisation: a naive timestamp is localised as UTC
(`tz_localize("UTC")`), an aware one is converted
(`tz_convert("UTC")`). -/
def PdTimestamp.toUtc (t : PdTimestamp) : Int :=
  match t.tzOffset with
  | none => t.wall
  | some o => t.wall - o

/-- A row of the frame after `coerce_types`: `student_id` cast to
string, the numeric fields parsed (NaN = `none`), `exam_date` parsed
(NaT = `none`), the remaining fields untouched sheet strings. -/
structure CRow where
  student_id : String
  grade : Option ℚ
  subject : String
  exam_id : String
  exam_type : String
  attempt_number : Option ℚ
  score : Option ℚ
  max_score : Option ℚ
  exam_date : Option PdTimestamp
deriving DecidableEq

/-- String content of a cell (sheet cells are strings; the default is
never reached once the schema check has passed). -/
def getStr (cols : List String) (row : List Cell) (c : String) : String :=
  (cellAt cols row c).getD ""

/-- One row of `coerce_types(df)` from `analytics/validators.py`. -/
def coerceRow (toNumeric : String → Option ℚ)
    (toDatetime : String → Option PdTimestamp)
    (cols : List String) (row : List Cell) : CRow :=
  { student_id := getStr cols row "student_id"
    grade := toNumeric (getStr cols row "grade")
    subject := getStr cols row "subject"
    exam_id := getStr cols row "exam_id"
    exam_type := getStr cols row "exam_type"
    attempt_number := toNumeric (getStr cols row "attempt_number")
    score := toNumeric (getStr cols row "score")
    max_score := toNumeric (getStr cols row "max_score")
    exam_date := toDatetime (getStr cols row "exam_date") }

/-- `coerce_types(df)` from `analytics/validators.py`. -/
def coerce_types (toNumeric : String → Option ℚ)
    (toDatetime : String → Option PdTimestamp) (df : DF) : List CRow :=
  df.rows.map (coerceRow toNumeric toDatetime df.columns)

/-- Identity check: `isinstance(str)` always holds after `astype(str)`,
so only blankness remains. -/
def identity_ok (r : CRow) : Bool := !(pyStrip r.student_id == "")

/-- Grade check: `not pd.isna(grade) and 1 <= int(grade) <= 12`,
Python `int()` truncating toward zero. -/
def grade_ok (r : CRow) : Bool :=
  match r.grade with
  | none => false
  | some g => decide (1 ≤ truncQ g) && decide (truncQ g ≤ 12)

/-- Subject check: non-blank. -/
def subject_ok (r : CRow) : Bool := !(pyStrip r.subject == "")

/-- Exam-type check: membership in `ALLOWED_EXAM_TYPES`. -/
def exam_type_ok (r : CRow) : Bool := ALLOWED_EXAM_TYPES.contains r.exam_type

/-- Attempt check: `not pd.isna(attempt) and not int(attempt) < 1`. -/
def attempt_ok (r : CRow) : Bool :=
  match r.attempt_number with
  | none => false
  | some a => decide (1 ≤ truncQ a)

/-- Max-score check: `not pd.isna(max_score) and not max_score <= 0`. -/
def max_score_ok (r : CRow) : Bool :=
  match r.max_score with
  | none => false
  | some m => decide (0 < m)

/-- Score check: `not (isna(score) or score < 0 or score > max_score)`;
when `max_score` is NaN the Python comparison `score > NaN` is `False`
(that case is unreachable behind `max_score_ok`). -/
def score_ok (r : CRow) : Bool :=
  match r.score, r.max_score with
  | none, _ => false
  | some s, some m => decide (0 ≤ s) && decide (s ≤ m)
  | some s, none => decide (0 ≤ s)

/-- Exam-date presence check: `not pd.isna(exam_date)`. -/
def exam_date_present (r : CRow) : Bool := r.exam_date.isSome

/-- Exam-date temporal check after UTC normalisation (`true` on a
missing date, which is unreachable behind `exam_date_present`). -/
def exam_date_le_now (now_utc : Int) (r : CRow) : Bool :=
  match r.exam_date with
  | none => true
  | some d => decide (d.toUtc ≤ now_utc)

/-- The per-row body of `validate_rows` from `analytics/validators.py`:
the first failing check raises, so at most one message per row, in the
source's order and with the source's messages. -/
def validate_row (now_utc : Int) (r : CRow) : Option String :=
  if ¬ identity_ok r then some "student_id missing or invalid"
  else if ¬ grade_ok r then some "grade out of range (1–12)"
  else if ¬ subject_ok r then some "invalid subject"
  else if ¬ exam_type_ok r then some "invalid exam_type"
  else if ¬ attempt_ok r then some "attempt_number < 1"
  else if ¬ max_score_ok r then some "max_score must be > 0"
  else if ¬ score_ok r then some "score outside valid range"
  else if ¬ exam_date_present r then some "exam_date is invalid or missing"
  else if ¬ exam_date_le_now now_utc r then some "exam_date is in the future"
  else none

/-- A collected row error: positional index, student id, message. -/
structure RowError where
  row_index : ℕ
  student_id : String
  error : String
deriving DecidableEq

/-- `validate_rows(df)` from `analytics/validators.py`. -/
def validate_rows (now_utc : Int) (rows : List CRow) : List RowError :=
  rows.enum.filterMap (fun p =>
    (validate_row now_utc p.2).map (fun e => ⟨p.1, p.2.student_id, e⟩))

/-- The error taxonomy of `run_validation`. -/
inductive ValErr where
  | sheetError (msg : String)
  | emptySheet
  | missingColumns (cols : List String)
  | extraColumns (cols : List String)
  | rowErrors (errs : List RowError)
  | duplicateRows
deriving DecidableEq

/-- `validate_schema(df)` from `analytics/validators.py` (the Python
set differences are represented as order-preserving filters). -/
def validate_schema (df : DF) : Option ValErr :=
  if REQUIRED_COLUMNS.filter (fun c => ¬ df.columns.contains c) ≠ [] then
    some (.missingColumns (REQUIRED_COLUMNS.filter (fun c => ¬ df.columns.contains c)))
  else if df.columns.filter (fun c => ¬ REQUIRED_COLUMNS.contains c) ≠ [] then
    some (.extraColumns (df.columns.filter (fun c => ¬ REQUIRED_COLUMNS.contains c)))
  else none

/-- The uniqueness key of `validate_uniqueness`. -/
def tripleOf (r : CRow) : String × String × Option ℚ :=
  (r.student_id, r.exam_id, r.attempt_number)

/-- `df.duplicated(subset=[student_id, exam_id, attempt_number]).any()`. -/
def hasDuplicateTriples (rows : List CRow) : Bool :=
  ! nodupB (rows.map tripleOf)

/-- Stable insertion of an element into a sorted list under a strict
order (earlier elements stay in front of equal later ones). -/
def insertBy {α : Type} (lt : α → α → Bool) (x : α) : List α → List α
  | [] => [x]
  | y :: ys => if lt y x then y :: insertBy lt x ys else x :: y :: ys

/-- Stable sort by a strict order (`sort_values` is stable on ties). -/
def sortBy {α : Type} (lt : α → α → Bool) : List α → List α
  | [] => []
  | x :: xs => insertBy lt x (sortBy lt xs)

/-- Missing numeric keys (NaN) sort last, as in pandas. -/
def optQLt : Option ℚ → Option ℚ → Bool
  | some x, some y => decide (x < y)
  | some _, none => true
  | none, _ => false

/-- The lexicographic sort key of `run_validation`:
(student_id, exam_id, attempt_number). -/
def rowLt (a b : CRow) : Bool :=
  if a.student_id ≠ b.student_id then a.student_id < b.student_id
  else if a.exam_id ≠ b.exam_id then a.exam_id < b.exam_id
  else optQLt a.attempt_number b.attempt_number

/-- Serialisation of a validated row for the output sheet
(`exam_date` reformatted through `fmtDate`, which models
`strftime("%Y-%m-%d")`; numeric repr is `toString`). -/
def serializeCRow (fmtDate : PdTimestamp → String) (r : CRow) : List Cell :=
  [some r.student_id,
   r.grade.map (fun q => toString q),
   some r.subject,
   some r.exam_id,
   some r.exam_type,
   r.attempt_number.map (fun q => toString q),
   r.score.map (fun q => toString q),
   r.max_score.map (fun q => toString q),
   r.exam_date.map fmtDate]

/-- `run_validation()` from `analytics/validators.py`: read the raw
sheet, validate, and only on full success write `validated_results`.
The returned store is the store after the call (unchanged on every
failure path), paired with the raised error if any. -/
def run_validation_frame (toNumeric : String → Option ℚ)
    (toDatetime : String → Option PdTimestamp)
    (fmtDate : PdTimestamp → String) (now_utc : Int) (store : Store)
    (df : DF) : Store × Option ValErr :=
  if df.rows.isEmpty then (store, some .emptySheet)
  else
    match validate_schema df with
    | some e => (store, some e)
    | none =>
      if validate_rows now_utc (coerce_types toNumeric toDatetime df) ≠ [] then
        (store, some (.rowErrors
          ((validate_rows now_utc (coerce_types toNumeric toDatetime df)).take 5)))
      else if hasDuplicateTriples (coerce_types toNumeric toDatetime df) then
        (store, some .duplicateRows)
      else
        (write_table store "validated_results"
          ⟨REQUIRED_COLUMNS,
           (sortBy rowLt (coerce_types toNumeric toDatetime df)).map
             (serializeCRow fmtDate)⟩,
         none)

def run_validation (toNumeric : String → Option ℚ)
    (toDatetime : String → Option PdTimestamp)
    (fmtDate : PdTimestamp → String) (now_utc : Int) (store : Store) :
    Store × Option ValErr :=
  match read_table store "raw_student_scores" with
  | .error e => (store, some (.sheetError e))
  | .ok df => run_validation_frame toNumeric toDatetime fmtDate now_utc store df

/-- Reduction of `run_validation` on a successful raw read. -/
theorem run_validation_ok (toNumeric : String → Option ℚ)
    (toDatetime : String → Option PdTimestamp)
    (fmtDate : PdTimestamp → String) (now_utc : Int) (store : Store) (df : DF)
    (h : read_table store "raw_student_scores" = .ok df) :
    run_validation toNumeric toDatetime fmtDate now_utc store =
      run_validation_frame toNumeric toDatetime fmtDate now_utc store df := by
  unfold run_validation
  rw [h]

/-! ### Claim C9 -/

/-- Names for the row-level checks, in the spec's fixed order. -/
inductive VCheck where
  | identity | grade | subject | examType | attempt | maxScore | score | examDate
deriving DecidableEq

/-- The spec's ordered check list: identity present, grade in [1,12],
subject non-empty, exam_type in \x7bmock, real\x7d, attempt_number ≥ 1,
max_score > 0, 0 ≤ score ≤ max_score, exam_date present and not after
now (UTC-normalised). -/
def specRowChecks (now_utc : Int) (r : CRow) : List (VCheck × Bool) :=
  [(.identity, identity_ok r),
   (.grade, grade_ok r),
   (.subject, subject_ok r),
   (.examType, exam_type_ok r),
   (.attempt, attempt_ok r),
   (.maxScore, max_score_ok r),
   (.score, score_ok r),
   (.examDate, exam_date_present r && exam_date_le_now now_utc r)]

/-- First violated check in the spec's fixed order, if any. -/
def specFirstViolation (now_utc : Int) (r : CRow) : Option VCheck :=
  ((specRowChecks now_utc r).find? (fun p => !p.2)).map Prod.fst

/-- Which check each recorded error message belongs to. -/
def checkOfError (e : String) : Option VCheck :=
  if e = "student_id missing or invalid" then some .identity
  else if e = "grade out of range (1–12)" then some .grade
  else if e = "invalid subject" then some .subject
  else if e = "invalid exam_type" then some .examType
  else if e = "attempt_number < 1" then some .attempt
  else if e = "max_score must be > 0" then some .maxScore
  else if e = "score outside valid range" then some .score
  else if e = "exam_date is invalid or missing" then some .examDate
  else if e = "exam_date is in the future" then some .examDate
  else none

/-- Sublist relating a filterMap image to the mapped original. -/
theorem filterMap_map_sublist {α β γ : Type} (l : List α) (f : α → Option β)
    (g : β → γ) (h : α → γ) (hfg : ∀ a b, f a = some b → g b = h a) :
    ((l.filterMap f).map g).Sublist (l.map h) := by
  induction l with
  | nil => simp
  | cons a t ih =>
    cases hfa : f a with
    | none =>
      simp only [List.filterMap_cons, hfa, List.map_cons]
      exact ih.cons _
    | some b =>
      simp only [List.filterMap_cons, hfa, List.map_cons, hfg a b hfa]
      exact ih.cons₂ _

/-- C9: per row, the recorded error (if any) is exactly the first
violated check of the spec's fixed order, and across a frame each row
contributes at most one error (the recorded row indices are pairwise
distinct). -/
theorem C9_first_violation_rule :
    (∀ (now_utc : Int) (r : CRow),
        (validate_row now_utc r).map checkOfError =
          (specFirstViolation now_utc r).map some) ∧
    (∀ (now_utc : Int) (rows : List CRow),
        ((validate_rows now_utc rows).map RowError.row_index).Nodup) := by
  constructor
  · intro now_utc r
    unfold validate_row specFirstViolation specRowChecks checkOfError
    cases identity_ok r <;> cases grade_ok r <;> cases subject_ok r <;>
      cases exam_type_ok r <;> cases attempt_ok r <;> cases max_score_ok r <;>
      cases score_ok r <;> cases exam_date_present r <;>
      cases exam_date_le_now now_utc r <;> rfl
  · intro now_utc rows
    have hsub : ((validate_rows now_utc rows).map RowError.row_index).Sublist
        (rows.enum.map Prod.fst) := by
      unfold validate_rows
      exact filterMap_map_sublist _ _ _ _ (by
        intro p re hre
        cases hv : validate_row now_utc p.2 <;> simp [hv] at hre
        subst hre; rfl)
    have hrange : rows.enum.map Prod.fst = List.range rows.length :=
      List.enum_map_fst rows
    exact ((hrange ▸ hsub).nodup (List.nodup_range _))

/-! ### Claim C1 -/

/-- C1: whenever any coerced raw row fails row-level validation or the
(student_id, exam_id, attempt_number) key repeats, `run_validation`
raises, leaves the store untouched (zero rows accepted), and a
row-validation failure surfaces exactly the first 5 collected row
errors. -/
theorem C1_fail_fast_batch (toNumeric : String → Option ℚ)
    (toDatetime : String → Option PdTimestamp)
    (fmtDate : PdTimestamp → String) (now_utc : Int) (store : Store) (df : DF)
    (hread : read_table store "raw_student_scores" = .ok df)
    (hbad : validate_rows now_utc (coerce_types toNumeric toDatetime df) ≠ [] ∨
            hasDuplicateTriples (coerce_types toNumeric toDatetime df) = true) :
    (run_validation toNumeric toDatetime fmtDate now_utc store).1 = store ∧
    (run_validation toNumeric toDatetime fmtDate now_utc store).2.isSome = true ∧
    (∀ l, (run_validation toNumeric toDatetime fmtDate now_utc store).2 =
            some (.rowErrors l) →
      l = (validate_rows now_utc (coerce_types toNumeric toDatetime df)).take 5 ∧
      l.length ≤ 5) := by
  rw [run_validation_ok toNumeric toDatetime fmtDate now_utc store df hread]
  unfold run_validation_frame
  by_cases hemp : df.rows.isEmpty
  · simp [hemp]
  · rw [if_neg (by simp [hemp])]
    cases hschema : validate_schema df with
    | some e =>
      refine ⟨rfl, rfl, ?_⟩
      intro l hl
      have he : e = ValErr.rowErrors l := by simpa using hl
      subst he
      unfold validate_schema at hschema
      split_ifs at hschema <;> simp_all
    | none =>
      by_cases herr : validate_rows now_utc (coerce_types toNumeric toDatetime df) ≠ []
      · rw [if_pos herr]
        refine ⟨rfl, rfl, ?_⟩
        intro l hl
        have h2 : ValErr.rowErrors
            ((validate_rows now_utc (coerce_types toNumeric toDatetime df)).take 5) =
            ValErr.rowErrors l := by
          injection hl
        have h3 : (validate_rows now_utc (coerce_types toNumeric toDatetime df)).take 5
            = l := by injection h2
        refine ⟨h3.symm, ?_⟩
        rw [← h3, List.length_take]
        exact min_le_left _ _
      · have hdup : hasDuplicateTriples (coerce_types toNumeric toDatetime df) = true := by
          rcases hbad with hb | hb
          · exact absurd hb herr
          · exact hb
        rw [if_neg herr, if_pos hdup]
        refine ⟨rfl, rfl, ?_⟩
        intro l hl
        simp at hl

/-- Witness for C1: a one-row raw sheet whose grade fails numeric
parsing, so the run fails with that row error and writes nothing. -/
def c1Store : Store := fun n =>
  if n = "raw_student_scores" then
    some [["student_id", "grade", "subject", "exam_id", "exam_type",
           "attempt_number", "score", "max_score", "exam_date"],
          ["S1", "??", "Math", "E1", "mock", "1", "50", "100", "2024-01-15"]]
  else none

theorem C1_fail_fast_batch_witness :
    (read_table c1Store "raw_student_scores" =
      .ok ⟨["student_id", "grade", "subject", "exam_id", "exam_type",
            "attempt_number", "score", "max_score", "exam_date"],
           [["S1", "??", "Math", "E1", "mock",
             "1", "50", "100", "2024-01-15"].map some]⟩) ∧
    (validate_rows 0 (coerce_types (fun _ => none) (fun _ => none)
        ⟨["student_id", "grade", "subject", "exam_id", "exam_type",
          "attempt_number", "score", "max_score", "exam_date"],
         [["S1", "??", "Math", "E1", "mock",
           "1", "50", "100", "2024-01-15"].map some]⟩) ≠ [] ∨
      hasDuplicateTriples (coerce_types (fun _ => none) (fun _ => none)
        ⟨["student_id", "grade", "subject", "exam_id", "exam_type",
          "attempt_number", "score", "max_score", "exam_date"],
         [["S1", "??", "Math", "E1", "mock",
           "1", "50", "100", "2024-01-15"].map some]⟩) = true) ∧
    ((run_validation (fun _ => none) (fun _ => none) (fun _ => "") 0 c1Store).1
        = c1Store ∧
     (run_validation (fun _ => none) (fun _ => none) (fun _ => "") 0 c1Store).2.isSome
        = true ∧
     (∀ l, (run_validation (fun _ => none) (fun _ => none) (fun _ => "") 0 c1Store).2 =
             some (.rowErrors l) →
        l = (validate_rows 0 (coerce_types (fun _ => none) (fun _ => none)
          ⟨["student_id", "grade", "subject", "exam_id", "exam_type",
            "attempt_number", "score", "max_score", "exam_date"],
           [["S1", "??", "Math", "E1", "mock",
             "1", "50", "100", "2024-01-15"].map some]⟩)).take 5 ∧
        l.length ≤ 5)) :=
  ⟨rfl, Or.inl (by decide),
   C1_fail_fast_batch (fun _ => none) (fun _ => none) (fun _ => "") 0 c1Store _
     rfl (Or.inl (by decide))⟩

/-! ### `llm/summary_generator.py` — Phase 3 narrative generation

The text-generation backends are opaque network calls, modelled by a
function from (attempt index, prompt) to the returned raw text; the
attempt index carries the nondeterminism across retries.  `json.loads`
is the external JSON decoder, modelled as a function from text to an
optional JSON value; `json.dumps` (used only inside prompt text and for
nested-value normalisation) is likewise a parameter. -/

/-- A decoded JSON value. -/
inductive Jv where
  | null
  | bool (b : Bool)
  | num (q : ℚ)
  | str (s : String)
  | arr (elems : List Jv)
  | obj (fields : List (String × Jv))

/-- Python truthiness of a decoded JSON value (`if parsed:`): `None`,
`False`, zero, the empty string, the empty list and the empty dict are
falsy. -/
def pyTruthy : Jv → Bool
  | .null => false
  | .bool b => b
  | .num q => !(q == 0)
  | .str s => !(s == "")
  | .arr l => !l.isEmpty
  | .obj l => !l.isEmpty

def lbrace : Char := Char.ofNat 123

def rbrace : Char := Char.ofNat 125

/-- First index of a character in a character list (`str.find`). -/
def charIdxOf : List Char → Char → Option ℕ
  | [], _ => none
  | x :: xs, c => if x = c then some 0 else (charIdxOf xs c).map (· + 1)

/-- Last index of a character in a character list (`str.rfind`). -/
def charLastIdxOf (cs : List Char) (c : Char) : Option ℕ :=
  (charIdxOf cs.reverse c).map (fun k => cs.length - 1 - k)

/-- `safe_json_parse(text)` from `llm/summary_generator.py` (textually
identical in `insights/student_consolidator.py`): empty text fails,
then a direct decode is attempted, then a decode of the substring from
the first opening brace to the last closing brace when the latter comes
strictly after the former. -/
def safe_json_parse (loads : String → Option Jv) (text : String) : Option Jv :=
  if text = "" then none
  else
    match loads text with
    | some v => some v
    | none =>
      match charIdxOf text.toList lbrace, charLastIdxOf text.toList rbrace with
      | some s, some e =>
        if s < e then loads (String.mk ((text.toList.drop s).take (e - s + 1)))
        else none
      | _, _ => none

/-- A Python dict of strings (a `to_dict(orient="records")` row). -/
abbrev Record := List (String × String)

/-- Python dict subscript `row[k]`: `KeyError` on a missing key (first
binding wins; `to_dict(orient="records")` rows have unique keys). -/
def getR (row : Record) (k : String) : Except String String :=
  match row.find? (fun p => p.1 = k) with
  | some p => .ok p.2
  | none => .error ("KeyError: " ++ k)

/-- Record view of a frame row. -/
def recOf (cols : List String) (row : List Cell) : Record :=
  cols.zip (row.map (fun c => c.getD ""))

/-- `build_prompt(row)` from `llm/summary_generator.py`: every insight
field is a dict subscript inside the f-string, so the first missing key
raises `KeyError` (Python evaluates the accesses top to bottom). -/
def build_prompt (row : Record) : Except String String :=
  match getR row "grade" with
  | .error e => .error e
  | .ok grade =>
  match getR row "subject" with
  | .error e => .error e
  | .ok subject =>
  match getR row "primary_issue" with
  | .error e => .error e
  | .ok primary_issue =>
  match getR row "secondary_issue" with
  | .error e => .error e
  | .ok secondary_issue =>
  match getR row "root_cause_category" with
  | .error e => .error e
  | .ok root_cause_category =>
  match getR row "academic_risk_level" with
  | .error e => .error e
  | .ok academic_risk_level =>
  match getR row "urgency_level" with
  | .error e => .error e
  | .ok urgency_level =>
  match getR row "recommended_focus_area" with
  | .error e => .error e
  | .ok recommended_focus_area =>
  match getR row "teacher_intervention_needed" with
  | .error e => .error e
  | .ok teacher_intervention_needed =>
    .ok ("\nStudent Academic Context\n------------------------\n" ++
      "Grade: " ++ grade ++ "\n" ++
      "Subject: " ++ subject ++ "\n\n" ++
      "Interpretable Insights\n---------------------\n" ++
      "Primary issue: " ++ primary_issue ++ "\n" ++
      "Secondary issue: " ++ secondary_issue ++ "\n" ++
      "Root cause category: " ++ root_cause_category ++ "\n" ++
      "Academic risk level: " ++ academic_risk_level ++ "\n" ++
      "Urgency level: " ++ urgency_level ++ "\n" ++
      "Recommended focus area: " ++ recommended_focus_area ++ "\n" ++
      "Teacher intervention needed: " ++ teacher_intervention_needed ++ "\n\n" ++
      "Instructions\n------------\n" ++
      "Write a detailed but readable academic summary.\n\n" ++
      "Return ONLY valid JSON in the following structure:\n" ++
      "\x7b\n" ++
      "  \"performance_summary\": \"2–4 sentences explaining current performance and pattern\",\n" ++
      "  \"improvement_plan\": \"Concrete, actionable steps written as guidance, not commands\",\n" ++
      "  \"motivation_note\": \"Encouraging message focused on confidence and growth mindset\",\n" ++
      "  \"confidence_note\": \"high | medium | low\"\n" ++
      "\x7d\n")

/-- The supported provider names of `call_llm`. -/
def LLM_PROVIDERS : List String := ["ollama", "openai", "claude", "gemini", "deepseek"]

def MAX_RETRIES : ℕ := 3

/-- `call_llm(prompt)` from `llm/summary_generator.py`: dispatch on the
configured provider, `ValueError` when unsupported. -/
def call_llm (provider : String) (backend : ℕ → String → String)
    (attempt : ℕ) (prompt : String) : Except String String :=
  if LLM_PROVIDERS.contains provider then .ok (backend attempt prompt)
  else .error ("Unsupported LLM_PROVIDER: " ++ provider)

/-- The `for _ in range(MAX_RETRIES)` retry loop shared by both
generators: on each attempt call the backend, parse, and return the
first truthy parse; `ok none` means exhaustion. -/
def retryLoop (loads : String → Option Jv) (call : ℕ → Except String String) :
    ℕ → ℕ → Except String (Option Jv)
  | 0, _ => .ok none
  | n + 1, i =>
    match call i with
    | .error e => .error e
    | .ok raw =>
      match safe_json_parse loads raw with
      | some parsed =>
        if pyTruthy parsed then .ok (some parsed)
        else retryLoop loads call n (i + 1)
      | none => retryLoop loads call n (i + 1)

/-- The canned fallback narrative returned by `generate_summary` when
every retry fails to parse. -/
def FALLBACK_SUMMARY : Jv :=
  .obj
    [("performance_summary", .str
      ("Based on the available academic signals, the student\x27s performance " ++
       "pattern has been analyzed, though a detailed AI narrative could not " ++
       "be generated at this time.")),
     ("improvement_plan", .str
      ("Continue reviewing core concepts regularly and seek clarification " ++
       "on challenging topics to strengthen understanding.")),
     ("motivation_note", .str
      ("Progress is built through consistency. With steady effort and support, " ++
       "meaningful improvement is achievable.")),
     ("confidence_note", .str "low")]

/-- `generate_summary(row)` from `llm/summary_generator.py`: build the
prompt (a `KeyError` from a row missing an insight field propagates),
retry up to `MAX_RETRIES`, then fall back to the canned narrative; the
other error path is an unsupported provider inside `call_llm`. -/
def generate_summary (provider : String) (backend : ℕ → String → String)
    (loads : String → Option Jv) (row : Record) : Except String Jv :=
  match build_prompt row with
  | .error e => .error e
  | .ok prompt =>
    match retryLoop loads
        (fun i => call_llm provider backend i prompt) MAX_RETRIES 0 with
    | .error e => .error e
    | .ok (some parsed) => .ok parsed
    | .ok none => .ok FALLBACK_SUMMARY

/-- Dict access `summary[k]`: `KeyError` on a missing key, `TypeError`
on a non-object (JSON objects keep the last duplicate key, as
`json.loads` does). -/
def jGet : Jv → String → Except String Jv
  | .obj fields, k =>
    match fields.reverse.find? (fun p => p.1 = k) with
    | some p => .ok p.2
    | none => .error ("KeyError: " ++ k)
  | _, _ => .error "TypeError"

/-- Python `str()` of a decoded JSON value; nested containers are
re-serialised through the external `dumps`. -/
def pyStrJ (dumps : Jv → String) : Jv → String
  | .null => "None"
  | .bool true => "True"
  | .bool false => "False"
  | .num q => toString q
  | .str s => s
  | .arr l => dumps (.arr l)
  | .obj l => dumps (.obj l)

/-- Output column names of the Phase 3 summary frame. -/
def summaryCols : List String :=
  ["student_id", "grade", "subject", "performance_summary",
   "improvement_plan", "motivation_note", "confidence_note", "llm_provider"]

/-- One output row of `run_llm` for an insight record and its generated
summary: the dict literal's values are evaluated left to right, so the
three insight-row subscripts come first and the four narrative
subscripts after, each a fallible dict access. -/
def summaryRow (dumps : Jv → String) (provider : String) (r : Record)
    (summary : Jv) : Except String (List Cell) :=
  match getR r "student_id" with
  | .error e => .error e
  | .ok sid =>
  match getR r "grade" with
  | .error e => .error e
  | .ok grade =>
  match getR r "subject" with
  | .error e => .error e
  | .ok subject =>
  match jGet summary "performance_summary" with
  | .error e => .error e
  | .ok ps =>
  match jGet summary "improvement_plan" with
  | .error e => .error e
  | .ok ip =>
  match jGet summary "motivation_note" with
  | .error e => .error e
  | .ok mn =>
  match jGet summary "confidence_note" with
  | .error e => .error e
  | .ok cn =>
    .ok [some sid, some grade, some subject, some (pyStrJ dumps ps),
         some (pyStrJ dumps ip), some (pyStrJ dumps mn),
         some (pyStrJ dumps cn), some provider]

/-- The body of a sequential Python `for` loop that can raise. -/
def forRows {α β : Type} (f : α → Except String β) :
    List α → Except String (List β)
  | [] => .ok []
  | a :: l =>
    match f a with
    | .error e => .error e
    | .ok b =>
      match forRows f l with
      | .error e => .error e
      | .ok bs => .ok (b :: bs)

/-- One loop iteration of `run_llm`: generate the narrative for an
insight row and shape the output row. -/
def narrateRow (provider : String) (backend : ℕ → String → String)
    (loads : String → Option Jv) (dumps : Jv → String)
    (cols : List String) (row : List Cell) : Except String (List Cell) :=
  match generate_summary provider backend loads (recOf cols row) with
  | .error e => .error e
  | .ok summary => summaryRow dumps provider (recOf cols row) summary

/-- `run_llm()` from `llm/summary_generator.py`: read the insight
table, keep only the first 20 rows (`df.head(20)`), generate one
summary per kept row, and fully overwrite `subject_summaries`. -/
def run_llm (provider : String) (backend : ℕ → String → String)
    (loads : String → Option Jv) (dumps : Jv → String) (store : Store) :
    Except String Store :=
  match read_table store "subject_insights" with
  | .error e => .error e
  | .ok df0 =>
    if (df0.rows.take 20).isEmpty then
      .error "subject_insights sheet is empty"
    else
      match forRows (narrateRow provider backend loads dumps df0.columns)
          (df0.rows.take 20) with
      | .error e => .error e
      | .ok outRows =>
        if outRows.isEmpty then .error "Phase 3 produced no summaries"
        else .ok (write_table store "subject_summaries" ⟨summaryCols, outRows⟩)

/-! ### Claim C3 -/

/-- `LLM_BACKENDS` of `insights/student_consolidator.py` (same provider
names as the Phase 3 dispatcher). -/
def LLM_BACKENDS : List String := ["ollama", "openai", "claude", "gemini", "deepseek"]

/-- `build_prompt(...)` from `insights/student_consolidator.py`; the
two record lists are embedded through the external `json.dumps`. -/
def build_prompt_consolidated (dumps : List Record → String)
    (student_id : String) (grade : Int)
    (analytics : List Record) (summaries : List Record) : String :=
  "Student ID: " ++ student_id ++ "\n" ++
  "Grade: " ++ toString grade ++ "\n\n" ++
  "Numerical subject analytics:\n" ++ dumps analytics ++ "\n\n" ++
  "Subject-level AI summaries:\n" ++ dumps summaries ++ "\n\n" ++
  "Return JSON ONLY in this exact schema:\n" ++
  "\x7b\n" ++
  "  \"overall_summary\": \"...\",\n" ++
  "  \"key_strengths\": \"...\",\n" ++
  "  \"areas_to_improve\": \"...\",\n" ++
  "  \"recommended_next_steps\": \"...\",\n" ++
  "  \"confidence_note\": \"high | medium | low\"\n" ++
  "\x7d"

/-- `generate_consolidated_summary(...)` from
`insights/student_consolidator.py`: unsupported provider fails fast,
then the same retry loop, but exhaustion raises instead of falling
back. -/
def generate_consolidated_summary (student_id : String) (grade : Int)
    (analytics : List Record) (summaries : List Record)
    (llm_provider : String) (backend : ℕ → String → String)
    (loads : String → Option Jv) (dumps : List Record → String) :
    Except String Jv :=
  if ¬ LLM_BACKENDS.contains llm_provider then
    .error ("Unsupported LLM provider: " ++ llm_provider)
  else
    match retryLoop loads
        (fun i => .ok (backend i
          (build_prompt_consolidated dumps student_id grade analytics summaries)))
        MAX_RETRIES 0 with
    | .error e => .error e
    | .ok (some parsed) => .ok parsed
    | .ok none => .error "LLM failed to produce valid JSON"

/-- One failed attempt unrolls the retry loop. -/
theorem retryLoop_step (loads : String → Option Jv)
    (call : ℕ → Except String String) (n i : ℕ) (raw : String)
    (hc : call i = .ok raw) (hparse : safe_json_parse loads raw = none) :
    retryLoop loads call (n + 1) i = retryLoop loads call n (i + 1) := by
  conv_lhs => unfold retryLoop
  simp only [hc, hparse]

/-- C3: on a row whose prompt builds (all nine insight fields present,
as `to_dict(orient="records")` rows of a full insight table are), if
every one of the 3 attempts yields unparseable text, the per-subject
generator returns the canned fallback (an `ok` value, so it never
raises) whose confidence note is "low", while the consolidation
generator raises after the 3rd attempt. -/
theorem C3_retry_exhaustion (provider : String)
    (backend : ℕ → String → String) (loads : String → Option Jv)
    (dumps : List Record → String) (row : Record) {prompt : String}
    (student_id : String) (grade : Int) (analytics summaries : List Record)
    (hp : LLM_PROVIDERS.contains provider = true)
    (hbp : build_prompt row = .ok prompt)
    (h1 : ∀ i, i < MAX_RETRIES →
      safe_json_parse loads (backend i prompt) = none)
    (h2 : ∀ i, i < MAX_RETRIES →
      safe_json_parse loads (backend i
        (build_prompt_consolidated dumps student_id grade analytics summaries)) = none) :
    generate_summary provider backend loads row = .ok FALLBACK_SUMMARY ∧
    jGet FALLBACK_SUMMARY "confidence_note" = .ok (.str "low") ∧
    generate_consolidated_summary student_id grade analytics summaries
        provider backend loads dumps = .error "LLM failed to produce valid JSON" := by
  have hp2 : LLM_BACKENDS.contains provider = true := hp
  refine ⟨?_, rfl, ?_⟩
  · unfold generate_summary
    simp only [hbp]
    have hc : ∀ i, (fun i => call_llm provider backend i prompt) i
        = .ok (backend i prompt) := by
      intro i
      simp only [call_llm]
      rw [if_pos hp]
    have e0 : retryLoop loads
        (fun i => call_llm provider backend i prompt) 3 0 =
        retryLoop loads
        (fun i => call_llm provider backend i prompt) 2 1 :=
      retryLoop_step _ _ _ _ _ (hc 0) (h1 0 (by decide))
    have e1 : retryLoop loads
        (fun i => call_llm provider backend i prompt) 2 1 =
        retryLoop loads
        (fun i => call_llm provider backend i prompt) 1 2 :=
      retryLoop_step _ _ _ _ _ (hc 1) (h1 1 (by decide))
    have e2 : retryLoop loads
        (fun i => call_llm provider backend i prompt) 1 2 =
        retryLoop loads
        (fun i => call_llm provider backend i prompt) 0 3 :=
      retryLoop_step _ _ _ _ _ (hc 2) (h1 2 (by decide))
    have hloop : retryLoop loads
        (fun i => call_llm provider backend i prompt) MAX_RETRIES 0 =
        .ok none := e0.trans (e1.trans e2)
    rw [hloop]
  · unfold generate_consolidated_summary
    rw [if_neg (by simpa using hp2)]
    have e0 : retryLoop loads
        (fun i => .ok (backend i
          (build_prompt_consolidated dumps student_id grade analytics summaries))) 3 0 =
        retryLoop loads
        (fun i => .ok (backend i
          (build_prompt_consolidated dumps student_id grade analytics summaries))) 2 1 :=
      retryLoop_step _ _ _ _ _ rfl (h2 0 (by decide))
    have e1 : retryLoop loads
        (fun i => .ok (backend i
          (build_prompt_consolidated dumps student_id grade analytics summaries))) 2 1 =
        retryLoop loads
        (fun i => .ok (backend i
          (build_prompt_consolidated dumps student_id grade analytics summaries))) 1 2 :=
      retryLoop_step _ _ _ _ _ rfl (h2 1 (by decide))
    have e2 : retryLoop loads
        (fun i => .ok (backend i
          (build_prompt_consolidated dumps student_id grade analytics summaries))) 1 2 =
        retryLoop loads
        (fun i => .ok (backend i
          (build_prompt_consolidated dumps student_id grade analytics summaries))) 0 3 :=
      retryLoop_step _ _ _ _ _ rfl (h2 2 (by decide))
    have hloop : retryLoop loads
        (fun i => .ok (backend i
          (build_prompt_consolidated dumps student_id grade analytics summaries)))
        MAX_RETRIES 0 = .ok none := e0.trans (e1.trans e2)
    rw [hloop]

/-- A complete insight record carrying all nine prompt fields. -/
def c3Row : Record :=
  [("grade", "8"), ("subject", "Math"), ("primary_issue", "accuracy"),
   ("secondary_issue", "consistency"), ("root_cause_category", "conceptual"),
   ("academic_risk_level", "medium"), ("urgency_level", "medium"),
   ("recommended_focus_area", "fundamentals"),
   ("teacher_intervention_needed", "True")]

/-- Witness for C3: a complete insight row, a backend that always
answers brace-free prose and a decoder that never parses it. -/
theorem C3_retry_exhaustion_witness :
    (LLM_PROVIDERS.contains "ollama" = true) ∧
    (∀ i, i < MAX_RETRIES →
      safe_json_parse (fun _ => none)
        ((fun (_ : ℕ) (_ : String) => "no json here") i "") = none) ∧
    (∀ i, i < MAX_RETRIES →
      safe_json_parse (fun _ => none)
        ((fun _ _ => "no json here") i
          (build_prompt_consolidated (fun _ => "[]") "S001" 9 [] [])) = none) ∧
    (generate_summary "ollama" (fun _ _ => "no json here") (fun _ => none)
        c3Row = .ok FALLBACK_SUMMARY ∧
     jGet FALLBACK_SUMMARY "confidence_note" = .ok (.str "low") ∧
     generate_consolidated_summary "S001" 9 [] [] "ollama"
        (fun _ _ => "no json here") (fun _ => none) (fun _ => "[]")
        = .error "LLM failed to produce valid JSON") :=
  ⟨rfl, fun _ _ => rfl, fun _ _ => rfl,
   C3_retry_exhaustion "ollama" (fun _ _ => "no json here") (fun _ => none)
     (fun _ => "[]") c3Row "S001" 9 [] [] rfl rfl
     (fun _ _ => rfl) (fun _ _ => rfl)⟩

/-! ### `insights/student_consolidator.py` — Phase 4 consolidation -/

/-- `normalize_for_sheets(value)`: dicts and lists are serialised
through the external `json.dumps`, `None` becomes the empty string,
everything else its `str()`. -/
def normalize_for_sheets (dumps : Jv → String) : Jv → String
  | .obj l => dumps (.obj l)
  | .arr l => dumps (.arr l)
  | .null => ""
  | v => pyStrJ dumps v

/-- Keys of a Python dict literal in first-insertion order. -/
def firstKeys : List String → List String
  | [] => []
  | k :: ks => k :: firstKeys (ks.filter (fun x => ¬ x = k))
termination_by l => l.length
decreasing_by
  simp only [List.length_cons]
  exact Nat.lt_succ_of_le (List.length_filter_le _ _)

/-- Value of the last binding of a key (later duplicate keys override
earlier ones in a dict literal). -/
def lastVal (l : List (String × String)) (k : String) : String :=
  ((l.reverse.find? (fun p => p.1 = k)).map Prod.snd).getD ""

/-- A Python dict literal built from ordered bindings: first-insertion
key order, last-binding values. -/
def pyDict (l : List (String × String)) : List (String × String) :=
  (firstKeys (l.map Prod.fst)).map (fun k => (k, lastVal l k))

/-- The consolidated output record of `run_student_consolidation`:
student_id and grade first, then the normalised fields of the parsed
consolidation, then the provider — with dict-literal override
semantics. -/
def consolidatedRecord (dumps : Jv → String) (student_id : String)
    (grade : Int) (fields : List (String × Jv)) (provider : String) :
    List (String × String) :=
  pyDict ([("student_id", student_id), ("grade", toString grade)] ++
    fields.map (fun p => (p.1, normalize_for_sheets dumps p.2)) ++
    [("llm_provider", provider)])

/-- The one-row output frame of `run_student_consolidation`. -/
def consOutputDF (dumps : Jv → String) (student_id : String) (grade : Int)
    (fields : List (String × Jv)) (provider : String) : DF :=
  ⟨(consolidatedRecord dumps student_id grade fields provider).map Prod.fst,
   [(consolidatedRecord dumps student_id grade fields provider).map
      (fun p => some p.2)]⟩

/-- `df[df["student_id"] == v]` row selection: `KeyError` when the
column is absent (in particular on the empty frame a short table reads
as). -/
def sliceBy (df : DF) (col : String) (v : String) :
    Except String (List (List Cell)) :=
  if memB col df.columns then
    .ok (df.rows.filter (fun r => cellAt df.columns r col == some v))
  else .error ("KeyError: " ++ col)

/-- The computation stage of `run_student_consolidation(student_id)`:
read both input tables, slice them by student, skip (`ok none`) when
either slice is empty, otherwise parse the grade, run the consolidation
generation and shape the output frame; any Python exception on the way
is an `error`. -/
def consOutput (backend : ℕ → String → String) (loads : String → Option Jv)
    (dumpsV : Jv → String) (dumpsR : List Record → String)
    (llm_provider : String) (student_id : String) (store : Store) :
    Except String (Option DF) :=
  match read_table store "subject_analytics" with
  | .error e => .error e
  | .ok adf =>
  match read_table store "subject_summaries" with
  | .error e => .error e
  | .ok sdf =>
  match sliceBy adf "student_id" student_id with
  | .error e => .error e
  | .ok aRows =>
  match sliceBy sdf "student_id" student_id with
  | .error e => .error e
  | .ok sRows =>
  match aRows with
  | [] => .ok none
  | a0 :: _ =>
    if sRows.isEmpty then .ok none
    else
      match (getStr adf.columns a0 "grade").toInt? with
      | none => .error "ValueError: invalid literal for int()"
      | some grade =>
      match generate_consolidated_summary student_id grade
          (aRows.map (recOf adf.columns)) (sRows.map (recOf sdf.columns))
          llm_provider backend loads dumpsR with
      | .error e => .error e
      | .ok (.obj fields) =>
        .ok (some (consOutputDF dumpsV student_id grade fields llm_provider))
      | .ok _ => .error "AttributeError: items"

/-- The persistence stage of `run_student_consolidation`: append the
row to the history table, then upsert it into the latest table keyed by
student_id; an upsert failure leaves the history already appended. -/
def persistConsolidated (store : Store) (odf : DF) : Store × Option String :=
  let store1 := append_table store "student_consolidated_history" odf
  match upsert_table store1 "student_consolidated_latest" odf ["student_id"] with
  | .error e => (store1, some e)
  | .ok store2 => (store2, none)

/-- `run_student_consolidation(student_id)` from
`insights/student_consolidator.py`: the returned store is the store
after the call (every failure before the writes leaves it untouched),
paired with the raised error if any; a skip is `(store, none)`. -/
def run_student_consolidation (backend : ℕ → String → String)
    (loads : String → Option Jv) (dumpsV : Jv → String)
    (dumpsR : List Record → String) (llm_provider : String)
    (student_id : String) (store : Store) : Store × Option String :=
  match consOutput backend loads dumpsV dumpsR llm_provider student_id store with
  | .error e => (store, some e)
  | .ok none => (store, none)
  | .ok (some odf) => persistConsolidated store odf

/-! ### Claim C8 -/

/-- C8 (amended): whenever both input tables read successfully with a
student_id column (so the pandas row selection itself does not raise)
and the per-student slice of either is empty, the consolidation run
returns without error and leaves the whole store — in particular both
consolidated tables — unchanged. -/
theorem C8_skip_on_missing_student (backend : ℕ → String → String)
    (loads : String → Option Jv) (dumpsV : Jv → String)
    (dumpsR : List Record → String) (llm_provider student_id : String)
    (store : Store) (adf sdf : DF)
    (ha : read_table store "subject_analytics" = .ok adf)
    (hs : read_table store "subject_summaries" = .ok sdf)
    (hac : memB "student_id" adf.columns = true)
    (hsc : memB "student_id" sdf.columns = true)
    (hempty :
      adf.rows.filter (fun r => cellAt adf.columns r "student_id" == some student_id) = [] ∨
      sdf.rows.filter (fun r => cellAt sdf.columns r "student_id" == some student_id) = []) :
    run_student_consolidation backend loads dumpsV dumpsR llm_provider
      student_id store = (store, none) := by
  have hsa : sliceBy adf "student_id" student_id =
      .ok (adf.rows.filter
        (fun r => cellAt adf.columns r "student_id" == some student_id)) := by
    unfold sliceBy
    rw [if_pos hac]
  have hss : sliceBy sdf "student_id" student_id =
      .ok (sdf.rows.filter
        (fun r => cellAt sdf.columns r "student_id" == some student_id)) := by
    unfold sliceBy
    rw [if_pos hsc]
  have hco : consOutput backend loads dumpsV dumpsR llm_provider student_id store
      = .ok none := by
    unfold consOutput
    simp only [ha, hs, hsa, hss]
    rcases hempty with he | he
    · simp only [he]
    · simp only [he]
      cases adf.rows.filter
          (fun r => cellAt adf.columns r "student_id" == some student_id) with
      | nil => rfl
      | cons a0 rest => simp
  unfold run_student_consolidation
  rw [hco]

/-- Witness for C8: well-formed analytics and summaries tables that
simply hold no row for the requested student. -/
def c8Store : Store := fun n =>
  if n = "subject_analytics" then
    some [["student_id", "grade", "subject"], ["S002", "9", "Math"]]
  else if n = "subject_summaries" then
    some [["student_id", "subject"], ["S002", "Math"]]
  else none

theorem C8_skip_on_missing_student_witness :
    (read_table c8Store "subject_analytics" =
      .ok ⟨["student_id", "grade", "subject"], [["S002", "9", "Math"].map some]⟩) ∧
    (read_table c8Store "subject_summaries" =
      .ok ⟨["student_id", "subject"], [["S002", "Math"].map some]⟩) ∧
    (memB "student_id" (["student_id", "grade", "subject"] : List String) = true) ∧
    (memB "student_id" (["student_id", "subject"] : List String) = true) ∧
    (run_student_consolidation (fun _ _ => "") (fun _ => none) (fun _ => "")
      (fun _ => "") "ollama" "S001" c8Store = (c8Store, none)) :=
  ⟨rfl, rfl, by decide, by decide,
   C8_skip_on_missing_student (fun _ _ => "") (fun _ => none) (fun _ => "")
     (fun _ => "") "ollama" "S001" c8Store _ _ rfl rfl (by decide) (by decide)
     (Or.inl (by decide))⟩

/-- C8 counterexample: with an (empty) analytics table holding only a
header, the per-student slice is vacuously empty, yet the run raises a
`KeyError` (pandas boolean selection on the columnless empty frame)
instead of skipping cleanly. -/
def c8BadStore : Store := fun n =>
  if n = "subject_analytics" then
    some [["student_id", "grade", "subject"]]
  else if n = "subject_summaries" then
    some [["student_id", "subject"], ["S001", "Math"]]
  else none

theorem C8_empty_table_raises :
    (run_student_consolidation (fun _ _ => "") (fun _ => none) (fun _ => "")
      (fun _ => "") "ollama" "S001" c8BadStore).2.isSome = true := by
  rfl

/-! ### Claim C6 -/

/-- The C6 invariant of the `student_consolidated_latest` table: at
most one row per student_id — the stored student_id cells are pairwise
distinct — together with rectangularity of the stored table (automatic
for every table pandas can construct or write, but not free in the
list-of-rows model). An absent or header-only table satisfies it. -/
def latestInv (store : Store) : Bool :=
  match store "student_consolidated_latest" with
  | none => true
  | some [] => true
  | some (h :: rows) =>
    rows.all (fun r => r.length == h.length) &&
    nodupB (rows.map (fun r => cellAt h (r.map some) "student_id"))

/-- Sanitising twice stores the same rows as sanitising once. -/
theorem storedRows_sanitize (df : DF) :
    storedRows (sanitize_df df) = storedRows df := by
  unfold storedRows sanitize_df
  simp only [List.map_map]
  exact List.map_congr_left (fun r _ => storedRow_sanitize r)

/-- A named cell of a lifted stored row is present whenever the column
index is within the row. -/
theorem cellAt_lift_isSome {cols : List String} {s : List String}
    {c : String} {i : ℕ} (hidx : idxOf? cols c = some i)
    (hlen : i < s.length) : (cellAt cols (s.map some) c).isSome := by
  rw [cellAt_eq_of_idx hidx, List.get?_map]
  cases hs : s.get? i with
  | none => exact absurd (List.get?_eq_none.mp hs) (by omega)
  | some v => rfl

/-- Sanitising fixes present cells. -/
theorem sanitizeCell_of_isSome {c : Cell} (h : c.isSome) :
    sanitizeCell c = c := by
  cases c with
  | none => cases h
  | some v => rfl

/-- Writing a frame of at most one rectangular row establishes the
latest-table invariant outright. -/
theorem latestInv_write_small (store : Store) (df : DF)
    (hrect : ∀ r ∈ df.rows, r.length = df.columns.length)
    (hone : df.rows.length ≤ 1) :
    latestInv (write_table store "student_consolidated_latest" df) = true := by
  have hw : write_table store "student_consolidated_latest" df
        "student_consolidated_latest"
      = some (df.columns :: storedRows (sanitize_df df)) := by
    simp [write_table, sanitize_df]
  unfold latestInv
  rw [hw, storedRows_sanitize]
  cases hrows : df.rows with
  | nil => simp [storedRows, hrows, nodupB]
  | cons r rest =>
    cases rest with
    | cons r2 rest2 => rw [hrows] at hone; simp at hone
    | nil =>
      have hr : r.length = df.columns.length := hrect r (by rw [hrows]; simp)
      simp [storedRows, hrows, nodupB, memB, storedRow, hr]



/-- Sanitised cells are always present. -/
theorem sanitizeCell_isSome (c : Cell) : (sanitizeCell c).isSome := by
  cases c <;> rfl

/-- Row-level sanitising is idempotent. -/
theorem sanitizeRow_idem (ρ : List Cell) :
    (ρ.map sanitizeCell).map sanitizeCell = ρ.map sanitizeCell := by
  rw [List.map_map]
  exact List.map_congr_left (fun c _ => sanitizeCell_sanitizeCell c)

/-- Lists of at most one element have no duplicates. -/
theorem nodup_of_length_le_one {α : Type} {l : List α} (h : l.length ≤ 1) :
    l.Nodup := by
  match l with
  | [] => exact List.nodup_nil
  | [a] => exact List.nodup_singleton a
  | a :: b :: t => simp at h

/-- Writing a frame whose rectangular rows have pairwise distinct
(sanitised) student_id cells establishes the latest-table invariant. -/
theorem latestInv_write_of (store : Store) (F : DF)
    (hrect : ∀ ρ ∈ F.rows, ρ.length = F.columns.length)
    (hnd : (F.rows.map
      (fun ρ => cellAt F.columns (ρ.map sanitizeCell) "student_id")).Nodup) :
    latestInv (write_table store "student_consolidated_latest" F) = true := by
  have hw : write_table store "student_consolidated_latest" F
        "student_consolidated_latest"
      = some (F.columns :: storedRows (sanitize_df F)) := by
    simp [write_table, sanitize_df]
  unfold latestInv
  rw [hw, storedRows_sanitize]
  cases hrows : F.rows with
  | nil => simp [storedRows, hrows, nodupB]
  | cons r rest =>
    simp only [storedRows, hrows, Bool.and_eq_true]
    constructor
    · simp only [List.all_eq_true, List.mem_map, beq_iff_eq]
      rintro s ⟨ρ, hρ, rfl⟩
      simp [storedRow, hrect ρ (by rw [hrows]; exact hρ)]
    · rw [nodupB_eq_true, List.map_map]
      have hmap : ((r :: rest).map
            ((fun s => cellAt F.columns (s.map some) "student_id") ∘ storedRow))
          = (r :: rest).map
            (fun ρ => cellAt F.columns (ρ.map sanitizeCell) "student_id") := by
        refine List.map_congr_left (fun ρ _ => ?_)
        simp only [Function.comp]
        rw [lift_storedRow]
      rw [hmap]
      rw [hrows] at hnd
      exact hnd


/-- Writing the sanitised form of a frame whose raw rows already have
rectangularity and distinct sanitised student_id cells keeps the
invariant. -/
theorem latestInv_write_of_sanitized (store : Store) (F : DF)
    (hrect : ∀ ρ ∈ F.rows, ρ.length = F.columns.length)
    (hnd : (F.rows.map
      (fun ρ => cellAt F.columns (ρ.map sanitizeCell) "student_id")).Nodup) :
    latestInv (write_table store "student_consolidated_latest"
      (sanitize_df F)) = true := by
  apply latestInv_write_of
  · intro ρ hρ
    simp only [sanitize_df, List.mem_map] at hρ
    obtain ⟨w, hw, rfl⟩ := hρ
    simpa using hrect w hw
  · have hEq : (sanitize_df F).rows.map
        (fun ρ => cellAt (sanitize_df F).columns (ρ.map sanitizeCell) "student_id")
        = F.rows.map
        (fun ρ => cellAt F.columns (ρ.map sanitizeCell) "student_id") := by
      simp only [sanitize_df, List.map_map]
      refine List.map_congr_left (fun ρ _ => ?_)
      simp only [Function.comp]
      rw [sanitizeRow_idem]
    rw [hEq]
    exact hnd

/-- Core of the upsert invariant: rewriting the latest table with the
cleaned existing rows plus the (at most one) present-celled rectangular
incoming row keeps the student_id cells pairwise distinct. -/
theorem latestInv_write_upserted (store : Store) (h : List String)
    (exR : List (List String)) (ocols : List String)
    (orows : List (List Cell))
    (hsidh : "student_id" ∈ h)
    (hsido : "student_id" ∈ ocols)
    (hrectO : ∀ w ∈ orows, w.length = ocols.length)
    (honeO : orows.length ≤ 1)
    (hsomeO : ∀ w ∈ orows, (cellAt ocols w "student_id").isSome = true)
    (hrectEx : ∀ s ∈ exR, s.length = h.length)
    (hndEx : (exR.map (fun s => cellAt h (s.map some) "student_id")).Nodup) :
    latestInv (write_table store "student_consolidated_latest"
      (sanitize_df (concatDF
        ⟨h, (exR.map (fun s => s.map some)).filter
          (fun ρ => ¬ memB (keyTuple h ["student_id"] ρ)
            (orows.map (keyTuple ocols ["student_id"])))⟩
        ⟨ocols, orows⟩))) = true := by
  obtain ⟨ih2, hihIdx⟩ : ∃ i, idxOf? h "student_id" = some i := by
    cases hx : idxOf? h "student_id" with
    | none => exact absurd (idxOf?_isSome_of_mem hsidh) (by simp [hx])
    | some i => exact ⟨i, rfl⟩
  have hihLt : ih2 < h.length := idxOf?_lt_length hihIdx
  obtain ⟨io, hioIdx⟩ : ∃ i, idxOf? ocols "student_id" = some i := by
    cases hx : idxOf? ocols "student_id" with
    | none => exact absurd (idxOf?_isSome_of_mem hsido) (by simp [hx])
    | some i => exact ⟨i, rfl⟩
  have hioLt : io < ocols.length := idxOf?_lt_length hioIdx
  have hκsome : ∀ ρ ∈ (exR.map (fun s => s.map some)).filter
      (fun ρ => ¬ memB (keyTuple h ["student_id"] ρ)
        (orows.map (keyTuple ocols ["student_id"]))),
      (cellAt h ρ "student_id").isSome = true ∧ ρ.length = h.length := by
    intro ρ hρ
    have hl : ρ ∈ exR.map (fun s => s.map some) := List.mem_of_mem_filter hρ
    obtain ⟨s, hs, rfl⟩ := List.mem_map.mp hl
    have hlen : s.length = h.length := hrectEx s hs
    exact ⟨cellAt_lift_isSome hihIdx (by omega), by simp [hlen]⟩
  unfold concatDF
  split_ifs with hceq0
  · replace hceq0 : h = ocols := hceq0
    apply latestInv_write_of_sanitized
    · intro ρ hρ
      rcases List.mem_append.mp hρ with hm | hm
      · exact (hκsome ρ hm).2
      · rw [hceq0]
        exact hrectO ρ hm
    · rw [List.map_append]
      have hmc : ((exR.map (fun s => s.map some)).filter
            (fun ρ => ¬ memB (keyTuple h ["student_id"] ρ)
              (orows.map (keyTuple ocols ["student_id"])))).map
            (fun ρ => cellAt h (ρ.map sanitizeCell) "student_id")
          = ((exR.map (fun s => s.map some)).filter
            (fun ρ => ¬ memB (keyTuple h ["student_id"] ρ)
              (orows.map (keyTuple ocols ["student_id"])))).map
            (fun ρ => cellAt h ρ "student_id") := by
        refine List.map_congr_left (fun ρ hρ => ?_)
        obtain ⟨hsome, hlen⟩ := hκsome ρ hρ
        rw [cellAt_sanitizeRow hihIdx (by omega), sanitizeCell_of_isSome hsome]
      have hmi : orows.map (fun ρ => cellAt h (ρ.map sanitizeCell) "student_id")
          = orows.map (fun w => cellAt ocols w "student_id") := by
        refine List.map_congr_left (fun w hw => ?_)
        have hlen := hrectO w hw
        rw [hceq0, cellAt_sanitizeRow hioIdx (by omega),
          sanitizeCell_of_isSome (hsomeO w hw)]
      rw [hmc, hmi, List.nodup_append]
      refine ⟨?_, ?_, ?_⟩
      · have hsubl := (List.filter_sublist (l :=
          exR.map (fun s => s.map some)) (p := fun ρ =>
            ¬ memB (keyTuple h ["student_id"] ρ)
              (orows.map (keyTuple ocols ["student_id"])))).map
          (fun ρ => cellAt h ρ "student_id")
        have hEq : (exR.map (fun s => s.map some)).map
              (fun ρ => cellAt h ρ "student_id")
            = exR.map (fun s => cellAt h (s.map some) "student_id") := by
          rw [List.map_map]
          rfl
        exact hndEx.sublist (hEq ▸ hsubl)
      · exact nodup_of_length_le_one (by simpa using honeO)
      · rw [List.disjoint_left]
        rintro x hx1 hx2
        obtain ⟨ρ, hρ, rfl⟩ := List.mem_map.mp hx1
        obtain ⟨w, hw, hxw⟩ := List.mem_map.mp hx2
        have hpred := of_decide_eq_true (List.mem_filter.mp hρ).2
        apply hpred
        rw [memB_eq_true]
        have hkeq : keyTuple h ["student_id"] ρ
            = keyTuple ocols ["student_id"] w := by
          show [cellAt h ρ "student_id"] = [cellAt ocols w "student_id"]
          rw [hxw]
        rw [hkeq]
        exact List.mem_map_of_mem _ hw
  · have hidxU : idxOf? (h ++ ocols.filter (fun c => ¬ memB c h))
        "student_id" = some ih2 := by
      rw [idxOf?_append_left hsidh]
      exact hihIdx
    have hsidU : "student_id" ∈ h ++ ocols.filter (fun c => ¬ memB c h) :=
      List.mem_append_left _ hsidh
    have hUlen : ih2 < (h ++ ocols.filter (fun c => ¬ memB c h)).length := by
      rw [List.length_append]
      omega
    apply latestInv_write_of_sanitized
    · intro ρ hρ
      rcases List.mem_append.mp hρ with hm | hm <;>
        · obtain ⟨w, _, rfl⟩ := List.mem_map.mp hm
          simp
    · rw [List.map_append, List.map_map, List.map_map]
      have hmc : ((exR.map (fun s => s.map some)).filter
            (fun ρ => ¬ memB (keyTuple h ["student_id"] ρ)
              (orows.map (keyTuple ocols ["student_id"])))).map
            ((fun ρ => cellAt (h ++ ocols.filter (fun c => ¬ memB c h))
                (ρ.map sanitizeCell) "student_id") ∘
              (fun r => (h ++ ocols.filter (fun c => ¬ memB c h)).map
                (cellAt h r)))
          = ((exR.map (fun s => s.map some)).filter
            (fun ρ => ¬ memB (keyTuple h ["student_id"] ρ)
              (orows.map (keyTuple ocols ["student_id"])))).map
            (fun ρ => cellAt h ρ "student_id") := by
        refine List.map_congr_left (fun ρ hρ => ?_)
        obtain ⟨hsome, hlen⟩ := hκsome ρ hρ
        simp only [Function.comp]
        rw [cellAt_sanitizeRow hidxU (by simpa using hUlen),
          cellAt_reindex hsidU, sanitizeCell_of_isSome hsome]
      have hmi : orows.map
            ((fun ρ => cellAt (h ++ ocols.filter (fun c => ¬ memB c h))
                (ρ.map sanitizeCell) "student_id") ∘
              (fun r => (h ++ ocols.filter (fun c => ¬ memB c h)).map
                (cellAt ocols r)))
          = orows.map (fun w => cellAt ocols w "student_id") := by
        refine List.map_congr_left (fun w hw => ?_)
        simp only [Function.comp]
        rw [cellAt_sanitizeRow hidxU (by simpa using hUlen),
          cellAt_reindex hsidU, sanitizeCell_of_isSome (hsomeO w hw)]
      rw [hmc, hmi, List.nodup_append]
      refine ⟨?_, ?_, ?_⟩
      · have hsubl := (List.filter_sublist (l :=
          exR.map (fun s => s.map some)) (p := fun ρ =>
            ¬ memB (keyTuple h ["student_id"] ρ)
              (orows.map (keyTuple ocols ["student_id"])))).map
          (fun ρ => cellAt h ρ "student_id")
        have hEq : (exR.map (fun s => s.map some)).map
              (fun ρ => cellAt h ρ "student_id")
            = exR.map (fun s => cellAt h (s.map some) "student_id") := by
          rw [List.map_map]
          rfl
        exact hndEx.sublist (hEq ▸ hsubl)
      · exact nodup_of_length_le_one (by simpa using honeO)
      · rw [List.disjoint_left]
        rintro x hx1 hx2
        obtain ⟨ρ, hρ, rfl⟩ := List.mem_map.mp hx1
        obtain ⟨w, hw, hxw⟩ := List.mem_map.mp hx2
        have hpred := of_decide_eq_true (List.mem_filter.mp hρ).2
        apply hpred
        rw [memB_eq_true]
        have hkeq : keyTuple h ["student_id"] ρ
            = keyTuple ocols ["student_id"] w := by
          show [cellAt h ρ "student_id"] = [cellAt ocols w "student_id"]
          rw [hxw]
        rw [hkeq]
        exact List.mem_map_of_mem _ hw

/-- Upserting a single rectangular all-present row keyed by student_id
preserves the latest-table invariant. -/
theorem upsert_preserves_latestInv (store : Store) (odf : DF) (s2 : Store)
    (hsid : "student_id" ∈ odf.columns)
    (hrect : ∀ r ∈ odf.rows, r.length = odf.columns.length)
    (hone : odf.rows.length ≤ 1)
    (hinv : latestInv store = true)
    (hok : upsert_table store "student_consolidated_latest" odf ["student_id"]
      = .ok s2) :
    latestInv s2 = true := by
  have hrectS : ∀ r ∈ (sanitize_df odf).rows, r.length = odf.columns.length := by
    intro r hr
    simp only [sanitize_df, List.mem_map] at hr
    obtain ⟨w, hw, rfl⟩ := hr
    simpa using hrect w hw
  have honeS : (sanitize_df odf).rows.length ≤ 1 := by
    simpa [sanitize_df] using hone
  unfold upsert_table at hok
  unfold readOrEmpty read_table at hok
  cases hv : store "student_consolidated_latest" with
  | none =>
    rw [hv] at hok
    simp only [List.isEmpty_nil, if_true] at hok
    injection hok with hok
    subst hok
    exact latestInv_write_small store (sanitize_df odf) hrectS honeS
  | some values =>
    rw [hv] at hok
    match values with
    | [] =>
      simp only [List.isEmpty_nil, if_true] at hok
      injection hok with hok
      subst hok
      exact latestInv_write_small store (sanitize_df odf) hrectS honeS
    | [h] =>
      simp only [List.isEmpty_nil, if_true] at hok
      injection hok with hok
      subst hok
      exact latestInv_write_small store (sanitize_df odf) hrectS honeS
    | h :: r1 :: rs =>
      simp only [List.map_cons, List.isEmpty_cons, Bool.false_eq_true, if_false] at hok
      cases hmem : memB "student_id" h with
      | false =>
        rw [if_pos (show ¬ (["student_id"].all fun c => memB c h) = true by
          simp [hmem])] at hok
        cases hok
      | true =>
        have hsidh : "student_id" ∈ h := memB_eq_true.mp hmem
        have hmemo : memB "student_id" (sanitize_df odf).columns = true := by
          rw [memB_eq_true]
          exact hsid
        rw [if_neg (show ¬ ¬ (["student_id"].all fun c => memB c h) = true by
              simp [hmem]),
            if_neg (show ¬ ¬ (["student_id"].all fun c =>
                memB c (sanitize_df odf).columns) = true by
              simp [hmemo])] at hok
        injection hok with hok
        subst hok
        have hinv2 := hinv
        unfold latestInv at hinv2
        rw [hv] at hinv2
        simp only [Bool.and_eq_true, List.all_eq_true, beq_iff_eq] at hinv2
        obtain ⟨hrectEx, hndEx⟩ := hinv2
        rw [nodupB_eq_true] at hndEx
        obtain ⟨io, hioIdx⟩ : ∃ i, idxOf? odf.columns "student_id" = some i := by
          cases hx : idxOf? odf.columns "student_id" with
          | none => exact absurd (idxOf?_isSome_of_mem hsid) (by simp [hx])
          | some i => exact ⟨i, rfl⟩
        have hioLt : io < odf.columns.length := idxOf?_lt_length hioIdx
        have hsomeO : ∀ w ∈ (sanitize_df odf).rows,
            (cellAt odf.columns w "student_id").isSome = true := by
          intro w hw
          have hlen : w.length = odf.columns.length := hrectS w hw
          have hw2 : ∃ v : List Cell, w = v.map sanitizeCell := by
            have hw3 := hw
            simp only [sanitize_df, List.mem_map] at hw3
            obtain ⟨v, _, rfl⟩ := hw3
            exact ⟨v, rfl⟩
          obtain ⟨v, rfl⟩ := hw2
          rw [cellAt_sanitizeRow hioIdx
            (by simp only [List.length_map] at hlen ⊢; omega)]
          exact sanitizeCell_isSome _
        exact latestInv_write_upserted store h (r1 :: rs) odf.columns
          (sanitize_df odf).rows hsidh hsid hrectS honeS hsomeO hrectEx hndEx


/-- The invariant only inspects the latest table. -/
theorem latestInv_congr {s s2 : Store}
    (h : s "student_consolidated_latest" = s2 "student_consolidated_latest") :
    latestInv s = latestInv s2 := by
  unfold latestInv
  rw [h]

/-- Keys of a Python dict are the first occurrences of the binding
keys. -/
theorem pyDict_keys (l : List (String × String)) :
    (pyDict l).map Prod.fst = firstKeys (l.map Prod.fst) := by
  unfold pyDict
  rw [List.map_map]
  have hid : (Prod.fst ∘ fun k => (k, lastVal l k)) = id := rfl
  rw [hid, List.map_id]

/-- The consolidated output frame always has a student_id column. -/
theorem consOutputDF_sid_mem (dumps : Jv → String) (sid : String)
    (grade : Int) (fields : List (String × Jv)) (provider : String) :
    "student_id" ∈ (consOutputDF dumps sid grade fields provider).columns := by
  show "student_id" ∈ (consolidatedRecord dumps sid grade fields provider).map Prod.fst
  unfold consolidatedRecord
  rw [pyDict_keys]
  rw [show ((([("student_id", sid), ("grade", toString grade)] ++
      fields.map (fun p => (p.1, normalize_for_sheets dumps p.2)) ++
      [("llm_provider", provider)]).map Prod.fst))
    = "student_id" :: (([("grade", toString grade)] ++
      fields.map (fun p => (p.1, normalize_for_sheets dumps p.2)) ++
      [("llm_provider", provider)]).map Prod.fst) from by simp]
  rw [firstKeys]
  exact List.mem_cons_self _ _

/-- The consolidated output frame is rectangular. -/
theorem consOutputDF_rect (dumps : Jv → String) (sid : String) (grade : Int)
    (fields : List (String × Jv)) (provider : String) :
    ∀ r ∈ (consOutputDF dumps sid grade fields provider).rows,
      r.length = (consOutputDF dumps sid grade fields provider).columns.length := by
  intro r hr
  simp only [consOutputDF, List.mem_singleton] at hr
  subst hr
  simp [consOutputDF]

/-- The argument bundle of one consolidation run. -/
structure ConsArgs where
  backend : ℕ → String → String
  loads : String → Option Jv
  dumpsV : Jv → String
  dumpsR : List Record → String
  provider : String
  student_id : String

/-- The store after one consolidation run (an exception leaves the
store as the call left it). -/
def runCons (a : ConsArgs) (store : Store) : Store :=
  (run_student_consolidation a.backend a.loads a.dumpsV a.dumpsR a.provider
    a.student_id store).1

/-- Every produced frame of the computation stage has the consolidated
shape. -/
theorem consOutput_shape (backend : ℕ → String → String)
    (loads : String → Option Jv) (dumpsV : Jv → String)
    (dumpsR : List Record → String) (provider student_id : String)
    (store : Store) (odf : DF)
    (h : consOutput backend loads dumpsV dumpsR provider student_id store
      = .ok (some odf)) :
    ∃ grade fields,
      odf = consOutputDF dumpsV student_id grade fields provider := by
  unfold consOutput at h
  split at h
  · cases h
  · split at h
    · cases h
    · split at h
      · cases h
      · split at h
        · cases h
        · split at h
          · simp at h
          · split at h
            · simp at h
            · split at h
              · cases h
              · rename_i grade _hg
                split at h
                · cases h
                · rename_i fields _hc
                  simp only [Except.ok.injEq, Option.some.injEq] at h
                  exact ⟨grade, fields, h.symm⟩
                · cases h

/-- One consolidation run preserves the latest-table invariant. -/
theorem runCons_preserves (a : ConsArgs) (store : Store)
    (h : latestInv store = true) : latestInv (runCons a store) = true := by
  unfold runCons run_student_consolidation
  cases hco : consOutput a.backend a.loads a.dumpsV a.dumpsR a.provider
      a.student_id store with
  | error e => simpa using h
  | ok o =>
    cases o with
    | none => simpa using h
    | some odf =>
      obtain ⟨grade, fields, rfl⟩ := consOutput_shape a.backend a.loads
        a.dumpsV a.dumpsR a.provider a.student_id store odf hco
      simp only
      unfold persistConsolidated
      have h1 : latestInv (append_table store "student_consolidated_history"
          (consOutputDF a.dumpsV a.student_id grade fields a.provider))
          = true := by
        rw [latestInv_congr (append_table_other store
          "student_consolidated_history"
          (consOutputDF a.dumpsV a.student_id grade fields a.provider)
          (by decide))]
        exact h
      cases hup : upsert_table
          (append_table store "student_consolidated_history"
            (consOutputDF a.dumpsV a.student_id grade fields a.provider))
          "student_consolidated_latest"
          (consOutputDF a.dumpsV a.student_id grade fields a.provider)
          ["student_id"] with
      | error e =>
        simp only [hup]
        exact h1
      | ok store2 =>
        simp only [hup]
        exact upsert_preserves_latestInv _ _ _
          (consOutputDF_sid_mem a.dumpsV a.student_id grade fields a.provider)
          (consOutputDF_rect a.dumpsV a.student_id grade fields a.provider)
          (by simp [consOutputDF]) h1 hup

/-- C6: starting from any store whose latest table has at most one row
per student_id (and rectangular stored rows), every sequence of
consolidation runs preserves that invariant, so the latest table never
gains a second row for any student. -/
theorem C6_latest_one_row_per_student (calls : List ConsArgs) (store : Store)
    (h : latestInv store = true) :
    latestInv (calls.foldl (fun s a => runCons a s) store) = true := by
  induction calls generalizing store with
  | nil => simpa using h
  | cons a t ih => exact ih (runCons a store) (runCons_preserves a store h)

/-- Witness for C6: one consolidation run on an initially empty store
(the run itself writes a first latest row for S001). -/
theorem C6_latest_one_row_per_student_witness :
    (latestInv (fun _ => none) = true) ∧
    latestInv ([(⟨fun _ _ => "", fun _ => none, fun _ => "", fun _ => "",
        "ollama", "S001"⟩ : ConsArgs)].foldl
      (fun s a => runCons a s) (fun _ => none)) = true :=
  ⟨rfl, C6_latest_one_row_per_student
    [⟨fun _ _ => "", fun _ => none, fun _ => "", fun _ => "", "ollama", "S001"⟩]
    (fun _ => none) rfl⟩


/-! ### Claim C2 -/

/-- `upsert_table` with its let-chain written out. -/
theorem upsert_table_eq (store : Store) (name : String) (df : DF)
    (key_columns : List String) :
    upsert_table store name df key_columns =
      if (readOrEmpty store name).rows.isEmpty then
        .ok (write_table store name (sanitize_df df))
      else if ¬ key_columns.all (fun c => memB c (readOrEmpty store name).columns) then
        .error "KeyError"
      else if ¬ key_columns.all (fun c => memB c df.columns) then
        .error "KeyError"
      else
        .ok (write_table store name (sanitize_df (concatDF
          ⟨(readOrEmpty store name).columns,
           (readOrEmpty store name).rows.filter
             (fun r => ¬ memB
               (keyTuple (readOrEmpty store name).columns key_columns r)
               ((sanitize_df df).rows.map (keyTuple df.columns key_columns)))⟩
          (sanitize_df df)))) := rfl

/-- Sanitising a frame is idempotent. -/
theorem sanitize_df_idem (df : DF) :
    sanitize_df (sanitize_df df) = sanitize_df df := by
  unfold sanitize_df
  simp only [List.map_map]
  refine congrArg (DF.mk df.columns) ?_
  refine List.map_congr_left (fun r _ => ?_)
  exact sanitizeRow_idem r

/-- Overwriting a freshly written table with the same stored payload is
the first write. -/
theorem write_table_stable {store : Store} {name : String} {d1 d2 : DF}
    (hc : d2.columns = d1.columns)
    (hr : storedRows (sanitize_df d2) = storedRows (sanitize_df d1)) :
    write_table (write_table store name d1) name d2 =
      write_table store name d1 := by
  funext n
  by_cases hn : n = name
  · show (if n = name then _ else _) = (if n = name then _ else _)
    rw [if_pos hn, if_pos hn]
    have hcc : (sanitize_df d2).columns = (sanitize_df d1).columns := hc
    rw [hcc, hr]
  · show (if n = name then _ else _) = (if n = name then _ else _)
    rw [if_neg hn, if_neg hn]
    show (if n = name then _ else _) = _
    rw [if_neg hn]

/-- Every data row read back from the store is a lifted string row. -/
theorem readOrEmpty_rows_shape (store : Store) (name : String) :
    ∀ r ∈ (readOrEmpty store name).rows, ∃ x, r = List.map some x := by
  intro r hr
  unfold readOrEmpty at hr
  cases hrt : read_table store name with
  | error e => simp only [hrt] at hr; cases hr
  | ok t =>
    simp only [hrt] at hr
    unfold read_table at hrt
    cases hs : store name with
    | none => simp only [hs] at hrt; cases hrt
    | some values =>
      simp only [hs] at hrt
      match values, hrt with
      | header :: row :: rest, hrt =>
        injection hrt with hrt
        rw [← hrt] at hr
        simp only [List.mem_map] at hr
        obtain ⟨x, _, rfl⟩ := hr
        exact ⟨x, rfl⟩
      | [], hrt =>
        injection hrt with hrt
        rw [← hrt] at hr
        cases hr
      | [header], hrt =>
        injection hrt with hrt
        rw [← hrt] at hr
        cases hr

/-- Rows read back from the store are unchanged by sanitising. -/
theorem readOrEmpty_rows_sanitized (store : Store) (name : String) :
    ∀ r ∈ (readOrEmpty store name).rows, r.map sanitizeCell = r := by
  intro r hr
  obtain ⟨x, rfl⟩ := readOrEmpty_rows_shape store name r hr
  rw [List.map_map]
  rfl

/-- Cells of rows read back from the store are all present. -/
theorem readOrEmpty_rows_some (store : Store) (name : String) :
    ∀ r ∈ (readOrEmpty store name).rows, ∀ c ∈ r, c.isSome := by
  intro r hr c hc
  obtain ⟨x, rfl⟩ := readOrEmpty_rows_shape store name r hr
  simp only [List.mem_map] at hc
  obtain ⟨v, _, rfl⟩ := hc
  rfl

/-- Counting rows with a given key is counting the key among the mapped
keys. -/
theorem count_of_key {α β : Type} [DecidableEq β] (f : α → β) (l : List α)
    (t : β) :
    l.countP (fun r => decide (f r = t)) = (l.map f).count t := by
  induction l with
  | nil => rfl
  | cons a s ih =>
    simp only [List.countP_cons, List.map_cons, List.count_cons, ih]
    by_cases h : f a = t
    · simp [h]
    · simp [h, Ne.symm h]

/-- In a block of key-missing rows followed by rows with pairwise
distinct keys, each key of the second block occurs exactly once. -/
theorem count_unique_append {cols keys : List String}
    {A B : List (List Cell)} {t : List Cell}
    (hA : ∀ r ∈ A, keyTuple cols keys r ≠ t)
    (hB : (B.map (keyTuple cols keys)).Nodup)
    (ht : t ∈ B.map (keyTuple cols keys)) :
    (A ++ B).countP (fun r => decide (keyTuple cols keys r = t)) = 1 := by
  rw [List.countP_append]
  have h0 : A.countP (fun r => decide (keyTuple cols keys r = t)) = 0 :=
    List.countP_eq_zero.mpr (fun r hr => by simpa using hA r hr)
  rw [h0, count_of_key (keyTuple cols keys) B t, Nat.zero_add]
  exact List.count_eq_one_of_mem hB ht

/-- `idxOf?` under a cons with a different head shifts by one. -/
theorem idxOf?_cons_ne {a c : String} {t : List String} (h : a ≠ c) :
    idxOf? (a :: t) c = Option.map (fun i => i + 1) (idxOf? t c) := by
  conv_lhs => unfold idxOf?
  rw [if_neg h]

/-- `cellAt` under a cons with a different head column skips the head. -/
theorem cellAt_cons_of_ne {a c : String} {t : List String} {x : Cell}
    {s : List Cell} (h : a ≠ c) :
    cellAt (a :: t) (x :: s) c = cellAt t s c := by
  unfold cellAt
  rw [idxOf?_cons_ne h]
  cases hi : idxOf? t c with
  | none => rfl
  | some i => rfl

/-- Re-indexing a rectangular row by its own duplicate-free columns is
the identity. -/
theorem reindex_self {cols : List String} {r : List Cell}
    (hnd : cols.Nodup) (hlen : r.length = cols.length) :
    cols.map (cellAt cols r) = r := by
  induction cols generalizing r with
  | nil =>
    cases r with
    | nil => rfl
    | cons x s => simp at hlen
  | cons a t ih =>
    cases r with
    | nil => simp at hlen
    | cons x s =>
      have hnd' := List.nodup_cons.mp hnd
      have hs : s.length = t.length := by
        simpa using hlen
      have hhead : cellAt (a :: t) (x :: s) a = x := by
        unfold cellAt idxOf?
        rw [if_pos rfl]
        rfl
      have htail : t.map (cellAt (a :: t) (x :: s)) = t.map (cellAt t s) := by
        refine List.map_congr_left (fun c hc => ?_)
        exact cellAt_cons_of_ne (fun he => hnd'.1 (he ▸ hc))
      rw [List.map_cons, hhead, htail, ih hnd'.2 hs]

/-- Key tuples survive re-indexing to a wider column list followed by
sanitising, as long as every key cell is present. -/
theorem keyTuple_reindex_sanitize {old new keys : List String} {r : List Cell}
    (hsub : ∀ k ∈ keys, k ∈ new)
    (hsome : ∀ k ∈ keys, (cellAt old r k).isSome) :
    keyTuple new keys ((new.map (cellAt old r)).map sanitizeCell) =
      keyTuple old keys r := by
  unfold keyTuple
  refine List.map_congr_left (fun k hk => ?_)
  have hknew := hsub k hk
  cases hidx : idxOf? new k with
  | none => exact absurd (idxOf?_isSome_of_mem hknew) (by simp [hidx])
  | some i =>
    have hlt : i < new.length := idxOf?_lt_length hidx
    have hlen : i < (new.map (cellAt old r)).length := by simpa using hlt
    rw [cellAt_sanitizeRow hidx hlen, cellAt_reindex hknew,
        sanitizeCell_of_isSome (hsome k hk)]

/-- A named cell of a rectangular all-present row is present. -/
theorem cellAt_isSome_of_rect {cols : List String} {r : List Cell} {k : String}
    (hk : k ∈ cols) (hlen : cols.length ≤ r.length)
    (hall : ∀ c ∈ r, c.isSome) : (cellAt cols r k).isSome := by
  cases hidx : idxOf? cols k with
  | none => exact absurd (idxOf?_isSome_of_mem hk) (by simp [hidx])
  | some i =>
    rw [cellAt_eq_of_idx hidx]
    have hi : i < r.length := lt_of_lt_of_le (idxOf?_lt_length hidx) hlen
    cases hr : r.get? i with
    | none => exact absurd (List.get?_eq_none.mp hr) (by omega)
    | some c =>
      have hcm : c ∈ r := List.get?_mem hr
      have hcs := hall c hcm
      cases c with
      | none => cases hcs
      | some v => rfl


/-- Concatenating an empty same-columned frame is the identity. -/
theorem concatDF_nil_left (df : DF) :
    concatDF ⟨df.columns, ([] : List (List Cell))⟩ (sanitize_df df) =
      sanitize_df df := by
  unfold concatDF
  split_ifs with h
  · rfl
  · exact absurd rfl h

/-- Mapping an identity-on-members sanitiser over a row list is the
identity. -/
theorem map_sanitize_id {l : List (List Cell)}
    (h : ∀ r ∈ l, r.map sanitizeCell = r) :
    l.map (fun r => r.map sanitizeCell) = l := by
  conv_rhs => rw [← List.map_id l]
  exact List.map_congr_left (fun r hr => h r hr)

/-- `sanitize_df` on an explicit frame literal. -/
theorem sanitize_df_mk (cols : List String) (rows : List (List Cell)) :
    sanitize_df ⟨cols, rows⟩ =
      ⟨cols, rows.map (fun r => r.map sanitizeCell)⟩ := rfl

/-- A frame of already-sanitised rows is unchanged by sanitising. -/
theorem sanitize_df_of_rows {cols : List String} {rows : List (List Cell)}
    (h : ∀ r ∈ rows, r.map sanitizeCell = r) :
    sanitize_df ⟨cols, rows⟩ = ⟨cols, rows⟩ := by
  unfold sanitize_df
  refine congrArg (DF.mk cols) ?_
  exact map_sanitize_id h

/-- `pd.concat` when the right columns are all known to the left frame:
the union adds nothing. -/
theorem concatDF_subset {acols : List String} {arows : List (List Cell)}
    {b : DF} (hne : ¬ acols = b.columns)
    (hsub : ∀ c ∈ b.columns, c ∈ acols) :
    concatDF ⟨acols, arows⟩ b = ⟨acols,
      arows.map (fun r => acols.map (cellAt acols r)) ++
      b.rows.map (fun r => acols.map (cellAt b.columns r))⟩ := by
  unfold concatDF
  rw [if_neg (show ¬ ((⟨acols, arows⟩ : DF).columns = b.columns) from hne)]
  have hfil : b.columns.filter (fun c => ¬ memB c acols) = [] := by
    rw [List.filter_eq_nil]
    intro c hc
    simp only [decide_eq_true_eq]
    intro hcon
    exact hcon (memB_eq_true.mpr (hsub c hc))
  simp only [hfil, List.append_nil]

/-- Re-upserting the same frame into the table produced by a first
nonempty-table upsert rewrites the identical table, and each incoming
key tuple indexes exactly one stored row. -/
theorem upsert_twice_core (store : Store) (name : String) (df : DF)
    (key_columns : List String) (E : DF) (s1 : Store)
    (hs1 : s1 = write_table store name (sanitize_df (concatDF
      ⟨E.columns, E.rows.filter (fun r => ¬ memB
          (keyTuple E.columns key_columns r)
          ((sanitize_df df).rows.map (keyTuple df.columns key_columns)))⟩
      (sanitize_df df))))
    (hEsan : ∀ r ∈ E.rows, r.map sanitizeCell = r)
    (hEsome : ∀ r ∈ E.rows, ∀ c ∈ r, c.isSome)
    (hndE : E.columns.Nodup)
    (hrectE : ∀ r ∈ E.rows, r.length = E.columns.length)
    (hEne : E.rows.isEmpty = false)
    (hc1 : key_columns.all (fun c => memB c E.columns) = true)
    (hkd : key_columns.all (fun c => memB c df.columns) = true)
    (hrectD : ∀ r ∈ df.rows, r.length = df.columns.length)
    (hndD : df.columns.Nodup)
    (hkeysN : ((sanitize_df df).rows.map
      (keyTuple df.columns key_columns)).Nodup) :
    upsert_table s1 name df key_columns = .ok s1 ∧
    ∀ t ∈ (sanitize_df df).rows.map (keyTuple df.columns key_columns),
      (readOrEmpty s1 name).rows.countP
        (fun r => decide
          (keyTuple (readOrEmpty s1 name).columns key_columns r = t)) = 1 := by
  have hDrows_san : ∀ r ∈ (sanitize_df df).rows, r.map sanitizeCell = r := by
    intro r hr
    simp only [sanitize_df, List.mem_map] at hr
    obtain ⟨ρ, _, rfl⟩ := hr
    exact sanitizeRow_idem ρ
  have hDall : ∀ r ∈ (sanitize_df df).rows, ∀ c ∈ r, c.isSome := by
    intro r hr c hc
    simp only [sanitize_df, List.mem_map] at hr
    obtain ⟨ρ, _, rfl⟩ := hr
    simp only [List.mem_map] at hc
    obtain ⟨c0, _, rfl⟩ := hc
    exact sanitizeCell_isSome c0
  have hDrect : ∀ r ∈ (sanitize_df df).rows, r.length = df.columns.length := by
    intro r hr
    simp only [sanitize_df, List.mem_map] at hr
    obtain ⟨ρ, hρ, rfl⟩ := hr
    simpa using hrectD ρ hρ
  have hsubD : ∀ k ∈ key_columns, k ∈ df.columns := fun k hk =>
    memB_eq_true.mp (List.all_eq_true.mp hkd k hk)
  have hsubE : ∀ k ∈ key_columns, k ∈ E.columns := fun k hk =>
    memB_eq_true.mp (List.all_eq_true.mp hc1 k hk)
  have hcleanSan : ∀ r ∈ E.rows.filter (fun r => ¬ memB
      (keyTuple E.columns key_columns r)
      ((sanitize_df df).rows.map (keyTuple df.columns key_columns))),
      r.map sanitizeCell = r :=
    fun r hr => hEsan r (List.mem_of_mem_filter hr)
  have hcleanKey : ∀ r ∈ E.rows.filter (fun r => ¬ memB
      (keyTuple E.columns key_columns r)
      ((sanitize_df df).rows.map (keyTuple df.columns key_columns))),
      keyTuple E.columns key_columns r ∉
        (sanitize_df df).rows.map (keyTuple df.columns key_columns) := by
    intro r hr hmem
    have h2 := (List.mem_filter.mp hr).2
    simp only [decide_eq_true_eq] at h2
    exact h2 (memB_eq_true.mpr hmem)
  have hDkeyMem : ∀ r ∈ (sanitize_df df).rows,
      memB (keyTuple df.columns key_columns r)
        ((sanitize_df df).rows.map (keyTuple df.columns key_columns))
        = true :=
    fun r hr => memB_eq_true.mpr (List.mem_map_of_mem _ hr)
  have hABne : ∀ (A B : List (List Cell)),
      A.length = (E.rows.filter (fun r => ¬ memB
        (keyTuple E.columns key_columns r)
        ((sanitize_df df).rows.map (keyTuple df.columns key_columns)))).length →
      B.length = (sanitize_df df).rows.length →
      (A ++ B).isEmpty = false := by
    intro A B hA hB
    rw [List.isEmpty_eq_false]
    intro hnil
    obtain ⟨hAnil, hBnil⟩ := List.append_eq_nil.mp hnil
    rw [hAnil] at hA
    rw [hBnil] at hB
    have hDnil : (sanitize_df df).rows = [] :=
      List.length_eq_zero.mp hB.symm
    have hfilnil : E.rows.filter (fun r => ¬ memB
        (keyTuple E.columns key_columns r)
        ((sanitize_df df).rows.map (keyTuple df.columns key_columns))) = [] :=
      List.length_eq_zero.mp hA.symm
    cases hEr : E.rows with
    | nil => rw [hEr] at hEne; cases hEne
    | cons e es =>
      rw [hEr, List.filter_cons] at hfilnil
      rw [hDnil] at hfilnil
      simp [memB] at hfilnil
  by_cases hcols : E.columns = df.columns
  · -- same schema: the concatenation keeps the columns
    have hFeq : concatDF
        ⟨E.columns, E.rows.filter (fun r => ¬ memB
          (keyTuple E.columns key_columns r)
          ((sanitize_df df).rows.map (keyTuple df.columns key_columns)))⟩
        (sanitize_df df) =
        ⟨E.columns, (E.rows.filter (fun r => ¬ memB
          (keyTuple E.columns key_columns r)
          ((sanitize_df df).rows.map (keyTuple df.columns key_columns))))
          ++ (sanitize_df df).rows⟩ := by
      unfold concatDF
      split_ifs with h
      · rfl
      · exact absurd hcols h
    rw [hFeq] at hs1
    have hsanF : sanitize_df (⟨E.columns,
        (E.rows.filter (fun r => ¬ memB
          (keyTuple E.columns key_columns r)
          ((sanitize_df df).rows.map (keyTuple df.columns key_columns))))
          ++ (sanitize_df df).rows⟩ : DF) =
        ⟨E.columns, (E.rows.filter (fun r => ¬ memB
          (keyTuple E.columns key_columns r)
          ((sanitize_df df).rows.map (keyTuple df.columns key_columns))))
          ++ (sanitize_df df).rows⟩ := by
      apply sanitize_df_of_rows
      intro r hr
      rcases List.mem_append.mp hr with h | h
      · exact hcleanSan r h
      · exact hDrows_san r h
    rw [hsanF] at hs1
    have hne : ((E.rows.filter (fun r => ¬ memB
        (keyTuple E.columns key_columns r)
        ((sanitize_df df).rows.map (keyTuple df.columns key_columns))))
        ++ (sanitize_df df).rows).isEmpty = false :=
      hABne _ _ rfl rfl
    have hE2 : readOrEmpty s1 name =
        ⟨E.columns, (E.rows.filter (fun r => ¬ memB
          (keyTuple E.columns key_columns r)
          ((sanitize_df df).rows.map (keyTuple df.columns key_columns))))
          ++ (sanitize_df df).rows⟩ := by
      rw [hs1, readOrEmpty_write]
      rw [if_neg (by simpa using hne), hsanF]
    have hE2rows := congrArg DF.rows hE2
    have hE2cols : (readOrEmpty s1 name).columns = df.columns := by
      rw [hE2]
      exact hcols
    constructor
    · rw [upsert_table_eq, hE2rows, hE2cols]
      rw [if_neg (by simpa using hne)]
      rw [hkd]
      rw [if_neg (fun h => h rfl), if_neg (fun h => h rfl)]
      have hfilter : ((E.rows.filter (fun r => ¬ memB
          (keyTuple E.columns key_columns r)
          ((sanitize_df df).rows.map (keyTuple df.columns key_columns))))
          ++ (sanitize_df df).rows).filter (fun r => ¬ memB
            (keyTuple df.columns key_columns r)
            ((sanitize_df df).rows.map (keyTuple df.columns key_columns))) =
          E.rows.filter (fun r => ¬ memB
            (keyTuple E.columns key_columns r)
            ((sanitize_df df).rows.map (keyTuple df.columns key_columns))) := by
        rw [List.filter_append]
        have hleft : (E.rows.filter (fun r => ¬ memB
            (keyTuple E.columns key_columns r)
            ((sanitize_df df).rows.map
              (keyTuple df.columns key_columns)))).filter (fun r => ¬ memB
            (keyTuple df.columns key_columns r)
            ((sanitize_df df).rows.map (keyTuple df.columns key_columns))) =
            E.rows.filter (fun r => ¬ memB
            (keyTuple E.columns key_columns r)
            ((sanitize_df df).rows.map (keyTuple df.columns key_columns))) := by
          apply List.filter_eq_self.mpr
          intro r hr
          have hthis := hcleanKey r hr
          rw [hcols] at hthis
          simp only [decide_eq_true_eq]
          intro hm
          exact hthis (memB_eq_true.mp hm)
        have hright : ((sanitize_df df).rows).filter (fun r => ¬ memB
            (keyTuple df.columns key_columns r)
            ((sanitize_df df).rows.map (keyTuple df.columns key_columns))) =
            [] := by
          apply List.filter_eq_nil.mpr
          intro r hr
          simp only [decide_eq_true_eq]
          intro hcontra
          exact hcontra (hDkeyMem r hr)
        rw [hleft, hright, List.append_nil]
      rw [hfilter]
      have hconcat2 : concatDF
          ⟨df.columns, E.rows.filter (fun r => ¬ memB
            (keyTuple E.columns key_columns r)
            ((sanitize_df df).rows.map (keyTuple df.columns key_columns)))⟩
          (sanitize_df df) =
          ⟨E.columns, (E.rows.filter (fun r => ¬ memB
            (keyTuple E.columns key_columns r)
            ((sanitize_df df).rows.map (keyTuple df.columns key_columns))))
            ++ (sanitize_df df).rows⟩ := by
        unfold concatDF
        split_ifs with h
        · rw [hcols]
        · exact absurd rfl h
      rw [hconcat2, hs1]
      exact congrArg Except.ok (write_table_stable rfl (storedRows_sanitize _))
    · intro t ht
      rw [hE2rows, hE2cols]
      apply count_unique_append
      · intro r hr hcontra
        have hthis := hcleanKey r hr
        rw [hcols] at hthis
        rw [hcontra] at hthis
        exact hthis ht
      · exact hkeysN
      · exact ht
  · -- differing schemas: the concatenation unions the columns
    set U := E.columns ++ df.columns.filter (fun c => ¬ memB c E.columns)
      with hU
    have hDsubU : ∀ c ∈ df.columns, c ∈ U := by
      intro c hc
      by_cases hmem : c ∈ E.columns
      · exact List.mem_append_left _ hmem
      · refine List.mem_append_right _ (List.mem_filter.mpr ⟨hc, ?_⟩)
        simp only [decide_eq_true_eq]
        intro hmb
        exact hmem (memB_eq_true.mp hmb)
    have hEsubU : ∀ c ∈ E.columns, c ∈ U :=
      fun c hc => List.mem_append_left _ hc
    have hndU : U.Nodup := by
      rw [hU, List.nodup_append]
      refine ⟨hndE, List.Nodup.filter _ hndD, ?_⟩
      intro c hcE hcF
      have hcf2 := (List.mem_filter.mp hcF).2
      simp only [decide_eq_true_eq] at hcf2
      exact hcf2 (memB_eq_true.mpr hcE)
    have hkeyE : ∀ r ∈ E.rows, keyTuple U key_columns
        ((U.map (cellAt E.columns r)).map sanitizeCell) =
        keyTuple E.columns key_columns r := by
      intro r hr
      apply keyTuple_reindex_sanitize
      · exact fun k hk => hEsubU k (hsubE k hk)
      · intro k hk
        exact cellAt_isSome_of_rect (hsubE k hk)
          (le_of_eq (hrectE r hr).symm) (hEsome r hr)
    have hkeyD : ∀ r ∈ (sanitize_df df).rows, keyTuple U key_columns
        ((U.map (cellAt df.columns r)).map sanitizeCell) =
        keyTuple df.columns key_columns r := by
      intro r hr
      apply keyTuple_reindex_sanitize
      · exact fun k hk => hDsubU k (hsubD k hk)
      · intro k hk
        exact cellAt_isSome_of_rect (hsubD k hk)
          (le_of_eq (hDrect r hr).symm) (hDall r hr)
    have hFeq : concatDF
        ⟨E.columns, E.rows.filter (fun r => ¬ memB
          (keyTuple E.columns key_columns r)
          ((sanitize_df df).rows.map (keyTuple df.columns key_columns)))⟩
        (sanitize_df df) =
        ⟨U, (E.rows.filter (fun r => ¬ memB
          (keyTuple E.columns key_columns r)
          ((sanitize_df df).rows.map
            (keyTuple df.columns key_columns)))).map (fun r =>
            U.map (cellAt E.columns r)) ++
          (sanitize_df df).rows.map (fun r =>
            U.map (cellAt df.columns r))⟩ := by
      unfold concatDF
      split_ifs with h
      · exact absurd h hcols
      · rw [hU]
        rfl
    rw [hFeq] at hs1
    have hsanF : sanitize_df (⟨U, (E.rows.filter (fun r => ¬ memB
        (keyTuple E.columns key_columns r)
        ((sanitize_df df).rows.map
          (keyTuple df.columns key_columns)))).map (fun r =>
          U.map (cellAt E.columns r)) ++
        (sanitize_df df).rows.map (fun r =>
          U.map (cellAt df.columns r))⟩ : DF) =
        ⟨U, (E.rows.filter (fun r => ¬ memB
          (keyTuple E.columns key_columns r)
          ((sanitize_df df).rows.map
            (keyTuple df.columns key_columns)))).map (fun r =>
            (U.map (cellAt E.columns r)).map sanitizeCell) ++
          (sanitize_df df).rows.map (fun r =>
            (U.map (cellAt df.columns r)).map sanitizeCell)⟩ := by
      rw [sanitize_df_mk]
      refine congrArg (DF.mk U) ?_
      rw [List.map_append, List.map_map, List.map_map]
      rfl
    rw [hsanF] at hs1
    have hne : ((E.rows.filter (fun r => ¬ memB
        (keyTuple E.columns key_columns r)
        ((sanitize_df df).rows.map
          (keyTuple df.columns key_columns)))).map (fun r =>
          (U.map (cellAt E.columns r)).map sanitizeCell) ++
        (sanitize_df df).rows.map (fun r =>
          (U.map (cellAt df.columns r)).map sanitizeCell)).isEmpty = false :=
      hABne _ _ (by simp) (by simp)
    have hsan2 : sanitize_df (⟨U, (E.rows.filter (fun r => ¬ memB
        (keyTuple E.columns key_columns r)
        ((sanitize_df df).rows.map
          (keyTuple df.columns key_columns)))).map (fun r =>
          (U.map (cellAt E.columns r)).map sanitizeCell) ++
        (sanitize_df df).rows.map (fun r =>
          (U.map (cellAt df.columns r)).map sanitizeCell)⟩ : DF) =
        ⟨U, (E.rows.filter (fun r => ¬ memB
          (keyTuple E.columns key_columns r)
          ((sanitize_df df).rows.map
            (keyTuple df.columns key_columns)))).map (fun r =>
            (U.map (cellAt E.columns r)).map sanitizeCell) ++
          (sanitize_df df).rows.map (fun r =>
            (U.map (cellAt df.columns r)).map sanitizeCell)⟩ := by
      apply sanitize_df_of_rows
      intro r hr
      rcases List.mem_append.mp hr with h | h
      · obtain ⟨ρ, _, rfl⟩ := List.mem_map.mp h
        exact sanitizeRow_idem _
      · obtain ⟨ρ, _, rfl⟩ := List.mem_map.mp h
        exact sanitizeRow_idem _
    have hE2 : readOrEmpty s1 name =
        ⟨U, (E.rows.filter (fun r => ¬ memB
          (keyTuple E.columns key_columns r)
          ((sanitize_df df).rows.map
            (keyTuple df.columns key_columns)))).map (fun r =>
            (U.map (cellAt E.columns r)).map sanitizeCell) ++
          (sanitize_df df).rows.map (fun r =>
            (U.map (cellAt df.columns r)).map sanitizeCell)⟩ := by
      rw [hs1, readOrEmpty_write]
      rw [if_neg (by simpa using hne), hsan2]
    have hE2rows := congrArg DF.rows hE2
    have hE2cols : (readOrEmpty s1 name).columns = U := by
      rw [hE2]
    have hallU : key_columns.all (fun c => memB c U) = true :=
      List.all_eq_true.mpr fun k hk =>
        memB_eq_true.mpr (hEsubU k (hsubE k hk))
    constructor
    · rw [upsert_table_eq, hE2rows, hE2cols]
      rw [if_neg (by simpa using hne)]
      rw [hallU, hkd]
      rw [if_neg (fun h => h rfl), if_neg (fun h => h rfl)]
      have hfilter2 : ((E.rows.filter (fun r => ¬ memB
          (keyTuple E.columns key_columns r)
          ((sanitize_df df).rows.map
            (keyTuple df.columns key_columns)))).map (fun r =>
            (U.map (cellAt E.columns r)).map sanitizeCell) ++
          (sanitize_df df).rows.map (fun r =>
            (U.map (cellAt df.columns r)).map sanitizeCell)).filter
          (fun r => ¬ memB (keyTuple U key_columns r)
            ((sanitize_df df).rows.map (keyTuple df.columns key_columns))) =
          (E.rows.filter (fun r => ¬ memB
            (keyTuple E.columns key_columns r)
            ((sanitize_df df).rows.map
              (keyTuple df.columns key_columns)))).map (fun r =>
            (U.map (cellAt E.columns r)).map sanitizeCell) := by
        rw [List.filter_append]
        have hleft : ((E.rows.filter (fun r => ¬ memB
            (keyTuple E.columns key_columns r)
            ((sanitize_df df).rows.map
              (keyTuple df.columns key_columns)))).map (fun r =>
              (U.map (cellAt E.columns r)).map sanitizeCell)).filter
            (fun r => ¬ memB (keyTuple U key_columns r)
              ((sanitize_df df).rows.map
                (keyTuple df.columns key_columns))) =
            (E.rows.filter (fun r => ¬ memB
              (keyTuple E.columns key_columns r)
              ((sanitize_df df).rows.map
                (keyTuple df.columns key_columns)))).map (fun r =>
              (U.map (cellAt E.columns r)).map sanitizeCell) := by
          apply List.filter_eq_self.mpr
          intro a ha
          obtain ⟨r, hr, rfl⟩ := List.mem_map.mp ha
          simp only [decide_eq_true_eq]
          rw [hkeyE r (List.mem_of_mem_filter hr)]
          intro hm
          exact hcleanKey r hr (memB_eq_true.mp hm)
        have hright : (((sanitize_df df).rows).map (fun r =>
            (U.map (cellAt df.columns r)).map sanitizeCell)).filter
            (fun r => ¬ memB (keyTuple U key_columns r)
              ((sanitize_df df).rows.map
                (keyTuple df.columns key_columns))) = [] := by
          apply List.filter_eq_nil.mpr
          intro b hb
          obtain ⟨r, hr, rfl⟩ := List.mem_map.mp hb
          simp only [decide_eq_true_eq]
          rw [hkeyD r hr]
          intro hcontra
          exact hcontra (hDkeyMem r hr)
        rw [hleft, hright, List.append_nil]
      rw [hfilter2]
      by_cases hUd : U = df.columns
      · have hB2D : (sanitize_df df).rows.map (fun r =>
            (U.map (cellAt df.columns r)).map sanitizeCell) =
            (sanitize_df df).rows := by
          conv_rhs => rw [← List.map_id ((sanitize_df df).rows)]
          refine List.map_congr_left (fun r hr => ?_)
          rw [hUd, reindex_self hndD (hDrect r hr)]
          exact hDrows_san r hr
        have hconcat2 : concatDF (⟨U, (E.rows.filter (fun r => ¬ memB
            (keyTuple E.columns key_columns r)
            ((sanitize_df df).rows.map
              (keyTuple df.columns key_columns)))).map (fun r =>
              (U.map (cellAt E.columns r)).map sanitizeCell)⟩ : DF)
            (sanitize_df df) =
            ⟨U, (E.rows.filter (fun r => ¬ memB
            (keyTuple E.columns key_columns r)
            ((sanitize_df df).rows.map
              (keyTuple df.columns key_columns)))).map (fun r =>
              (U.map (cellAt E.columns r)).map sanitizeCell) ++
              (sanitize_df df).rows⟩ := by
          unfold concatDF
          split_ifs with h
          · rfl
          · exact absurd hUd h
        rw [hconcat2, hs1]
        refine congrArg Except.ok (write_table_stable rfl ?_)
        rw [storedRows_sanitize, storedRows_sanitize, storedRows_sanitize]
        rw [hB2D]
      · have hcD : (sanitize_df df).columns = df.columns := rfl
        have hconcat2 := @concatDF_subset U ((E.rows.filter (fun r => ¬ memB
            (keyTuple E.columns key_columns r)
            ((sanitize_df df).rows.map
              (keyTuple df.columns key_columns)))).map (fun r =>
              (U.map (cellAt E.columns r)).map sanitizeCell))
          (sanitize_df df) hUd hDsubU
        rw [hcD] at hconcat2
        have hA2self : ((E.rows.filter (fun r => ¬ memB
            (keyTuple E.columns key_columns r)
            ((sanitize_df df).rows.map
              (keyTuple df.columns key_columns)))).map (fun r =>
              (U.map (cellAt E.columns r)).map sanitizeCell)).map
            (fun r => U.map (cellAt U r)) =
            (E.rows.filter (fun r => ¬ memB
            (keyTuple E.columns key_columns r)
            ((sanitize_df df).rows.map
              (keyTuple df.columns key_columns)))).map (fun r =>
              (U.map (cellAt E.columns r)).map sanitizeCell) := by
          conv_rhs => rw [← List.map_id ((E.rows.filter (fun r => ¬ memB
            (keyTuple E.columns key_columns r)
            ((sanitize_df df).rows.map
              (keyTuple df.columns key_columns)))).map (fun r =>
              (U.map (cellAt E.columns r)).map sanitizeCell))]
          refine List.map_congr_left (fun a ha => ?_)
          obtain ⟨r, hr, rfl⟩ := List.mem_map.mp ha
          exact reindex_self hndU (by simp)
        rw [hconcat2, hA2self]
        have hsanMix : sanitize_df (⟨U, (E.rows.filter (fun r => ¬ memB
            (keyTuple E.columns key_columns r)
            ((sanitize_df df).rows.map
              (keyTuple df.columns key_columns)))).map (fun r =>
              (U.map (cellAt E.columns r)).map sanitizeCell) ++
            (sanitize_df df).rows.map (fun r =>
              U.map (cellAt df.columns r))⟩ : DF) =
            ⟨U, (E.rows.filter (fun r => ¬ memB
            (keyTuple E.columns key_columns r)
            ((sanitize_df df).rows.map
              (keyTuple df.columns key_columns)))).map (fun r =>
              (U.map (cellAt E.columns r)).map sanitizeCell) ++
              (sanitize_df df).rows.map (fun r =>
                (U.map (cellAt df.columns r)).map sanitizeCell)⟩ := by
          rw [sanitize_df_mk]
          refine congrArg (DF.mk U) ?_
          rw [List.map_append]
          congr 1
          · apply map_sanitize_id
            intro r hr
            obtain ⟨ρ, _, rfl⟩ := List.mem_map.mp hr
            exact sanitizeRow_idem _
          · rw [List.map_map]
            rfl
        rw [hs1]
        refine congrArg Except.ok (write_table_stable rfl ?_)
        rw [storedRows_sanitize, hsanMix, storedRows_sanitize]
    · intro t ht
      rw [hE2rows, hE2cols]
      have hBkeys : ((sanitize_df df).rows.map (fun r =>
          (U.map (cellAt df.columns r)).map sanitizeCell)).map
          (keyTuple U key_columns) =
          (sanitize_df df).rows.map (keyTuple df.columns key_columns) := by
        rw [List.map_map]
        exact List.map_congr_left (fun r hr => hkeyD r hr)
      apply count_unique_append
      · intro a ha hcontra
        obtain ⟨r, hr, rfl⟩ := List.mem_map.mp ha
        rw [hkeyE r (List.mem_of_mem_filter hr)] at hcontra
        have hthis := hcleanKey r hr
        rw [hcontra] at hthis
        exact hthis ht
      · rw [hBkeys]
        exact hkeysN
      · rw [hBkeys]
        exact ht

/-- C2 (amended): whenever a first `upsert_table` call succeeds on a
well-formed frame (rectangular rows, duplicate-free headers, key
columns present in the incoming frame) whose sanitised incoming key
tuples are pairwise distinct, repeating the identical call returns the
exact same store, and the resulting table holds exactly one row per
incoming key tuple. -/
theorem C2_upsert_idempotent (store : Store) (name : String) (df : DF)
    (key_columns : List String) (s1 : Store)
    (h1 : upsert_table store name df key_columns = .ok s1)
    (hkd : key_columns.all (fun c => memB c df.columns) = true)
    (hrectD : ∀ r ∈ df.rows, r.length = df.columns.length)
    (hndD : df.columns.Nodup)
    (hkeysN : ((sanitize_df df).rows.map
      (keyTuple df.columns key_columns)).Nodup)
    (hndE : (readOrEmpty store name).columns.Nodup)
    (hrectE : ∀ r ∈ (readOrEmpty store name).rows,
      r.length = (readOrEmpty store name).columns.length) :
    upsert_table s1 name df key_columns = .ok s1 ∧
    ∀ t ∈ (sanitize_df df).rows.map (keyTuple df.columns key_columns),
      (readOrEmpty s1 name).rows.countP
        (fun r => decide
          (keyTuple (readOrEmpty s1 name).columns key_columns r = t)) = 1 := by
  have hcolsD : (sanitize_df df).columns = df.columns := rfl
  rw [upsert_table_eq] at h1
  by_cases hEmpty : (readOrEmpty store name).rows.isEmpty = true
  · rw [if_pos hEmpty] at h1
    injection h1 with h1
    subst h1
    by_cases hD0 : (sanitize_df df).rows.isEmpty = true
    · have hE2 : readOrEmpty (write_table store name (sanitize_df df)) name =
          (⟨[], []⟩ : DF) := by
        rw [readOrEmpty_write, if_pos hD0]
      constructor
      · rw [upsert_table_eq, hE2]
        rw [if_pos (show ((⟨[], []⟩ : DF).rows.isEmpty = true) from rfl)]
        exact congrArg Except.ok (write_table_stable rfl rfl)
      · intro t ht
        cases hrows : (sanitize_df df).rows with
        | nil => rw [hrows] at ht; cases ht
        | cons r rest => rw [hrows] at hD0; simp at hD0
    · have hE2 : readOrEmpty (write_table store name (sanitize_df df)) name =
          sanitize_df df := by
        rw [readOrEmpty_write, if_neg hD0, sanitize_df_idem]
      have hclean2 : (sanitize_df df).rows.filter
          (fun r => ¬ memB (keyTuple df.columns key_columns r)
            ((sanitize_df df).rows.map (keyTuple df.columns key_columns)))
          = [] := by
        rw [List.filter_eq_nil]
        intro r hr
        have hm : memB (keyTuple df.columns key_columns r)
            ((sanitize_df df).rows.map (keyTuple df.columns key_columns))
            = true :=
          memB_eq_true.mpr (List.mem_map_of_mem _ hr)
        simp [hm]
      constructor
      · rw [upsert_table_eq, hE2, hcolsD]
        rw [if_neg hD0, hkd]
        rw [if_neg (fun h => h rfl), if_neg (fun h => h rfl)]
        rw [hclean2, concatDF_nil_left, sanitize_df_idem]
        exact congrArg Except.ok (write_table_stable rfl rfl)
      · intro t ht
        rw [hE2, hcolsD]
        rw [count_of_key]
        exact List.count_eq_one_of_mem hkeysN ht
  · rw [if_neg hEmpty] at h1
    by_cases hc1 : key_columns.all
        (fun c => memB c (readOrEmpty store name).columns) = true
    · rw [if_neg (not_not_intro hc1), if_neg (not_not_intro hkd)] at h1
      injection h1 with h1
      have hEne : (readOrEmpty store name).rows.isEmpty = false := by
        cases h : (readOrEmpty store name).rows.isEmpty
        · rfl
        · exact absurd h hEmpty
      exact upsert_twice_core store name df key_columns
        (readOrEmpty store name) s1 h1.symm
        (readOrEmpty_rows_sanitized store name)
        (readOrEmpty_rows_some store name) hndE hrectE hEne
        hc1 hkd hrectD hndD hkeysN
    · rw [if_pos hc1] at h1
      cases h1



/-- An empty spreadsheet. -/
def c2Store : Store := fun _ => none

/-- An incoming frame whose two rows share the key tuple. -/
def c2DF : DF := ⟨["k", "v"], [[some "a", some "1"], [some "a", some "2"]]⟩

/-- Upserting two rows with the same key tuple stores both, so the
result does not have one row per key. -/
theorem C2_duplicate_keys_cex :
    upsert_table c2Store "t" c2DF ["k"] =
      .ok (write_table c2Store "t" (sanitize_df c2DF)) ∧
    (readOrEmpty (write_table c2Store "t" (sanitize_df c2DF)) "t").rows.countP
      (fun r => decide (keyTuple
        (readOrEmpty (write_table c2Store "t" (sanitize_df c2DF)) "t").columns
        ["k"] r = [some "a"])) = 2 := ⟨rfl, by decide⟩

/-- A single-row frame with a key column. -/
def c2wDF : DF := ⟨["k", "v"], [[some "a", some "1"]]⟩

/-- The store left by a first upsert of `c2wDF` into an empty sheet. -/
def c2wS1 : Store := write_table (fun _ => none) "t" (sanitize_df c2wDF)

theorem C2_upsert_idempotent_witness :
    upsert_table c2wS1 "t" c2wDF ["k"] = .ok c2wS1 ∧
    ∀ t ∈ (sanitize_df c2wDF).rows.map (keyTuple c2wDF.columns ["k"]),
      (readOrEmpty c2wS1 "t").rows.countP
        (fun r => decide
          (keyTuple (readOrEmpty c2wS1 "t").columns ["k"] r = t)) = 1 :=
  C2_upsert_idempotent (fun _ => none) "t" c2wDF ["k"] c2wS1 rfl (by decide)
    (by decide) (by decide) (by decide) (by decide) (by decide)

/-! ### Claim C10 -/

/-- The four narrative keys `run_llm` reads from a generated summary. -/
def hasSummaryKeys (j : Jv) : Bool :=
  match j with
  | .obj fields =>
    ["performance_summary", "improvement_plan", "motivation_note",
     "confidence_note"].all (fun k => fields.any (fun p => p.1 = k))
  | _ => false

/-- The nine insight fields `build_prompt` subscripts, in evaluation
order. -/
def promptKeys : List String :=
  ["grade", "subject", "primary_issue", "secondary_issue",
   "root_cause_category", "academic_risk_level", "urgency_level",
   "recommended_focus_area", "teacher_intervention_needed"]

/-- Every column a `run_llm` loop iteration subscripts on an insight
record. -/
def summaryInputKeys : List String := "student_id" :: promptKeys

/-- Subscripting a record built from columns that cover the row
succeeds on every column. -/
theorem getR_recOf_ok {cols : List String} {row : List Cell} {k : String}
    (hk : k ∈ cols) (hlen : cols.length ≤ row.length) :
    ∃ v, getR (recOf cols row) k = .ok v := by
  induction cols generalizing row with
  | nil => cases hk
  | cons c cs ih =>
    cases row with
    | nil => simp at hlen
    | cons x xs =>
      show ∃ v, getR ((c, x.getD "") :: recOf cs xs) k = .ok v
      by_cases hck : c = k
      · refine ⟨x.getD "", ?_⟩
        unfold getR
        rw [List.find?_cons_of_pos _ (by simpa using hck)]
      · rcases List.mem_cons.mp hk with hkc | hm
        · exact absurd hkc.symm hck
        · have hlen2 : cs.length ≤ xs.length := by simpa using hlen
          obtain ⟨v, hv⟩ := ih hm hlen2
          refine ⟨v, ?_⟩
          unfold getR at hv ⊢
          rw [List.find?_cons_of_neg _ (by simpa using hck)]
          exact hv

/-- A record carrying the nine prompt fields always yields a prompt. -/
theorem build_prompt_ok {row : Record}
    (h : ∀ k ∈ promptKeys, ∃ v, getR row k = .ok v) :
    ∃ p, build_prompt row = .ok p := by
  obtain ⟨v1, h1⟩ := h "grade" (by simp [promptKeys])
  obtain ⟨v2, h2⟩ := h "subject" (by simp [promptKeys])
  obtain ⟨v3, h3⟩ := h "primary_issue" (by simp [promptKeys])
  obtain ⟨v4, h4⟩ := h "secondary_issue" (by simp [promptKeys])
  obtain ⟨v5, h5⟩ := h "root_cause_category" (by simp [promptKeys])
  obtain ⟨v6, h6⟩ := h "academic_risk_level" (by simp [promptKeys])
  obtain ⟨v7, h7⟩ := h "urgency_level" (by simp [promptKeys])
  obtain ⟨v8, h8⟩ := h "recommended_focus_area" (by simp [promptKeys])
  obtain ⟨v9, h9⟩ := h "teacher_intervention_needed" (by simp [promptKeys])
  unfold build_prompt
  rw [h1, h2, h3, h4, h5, h6, h7, h8, h9]
  exact ⟨_, rfl⟩

/-- A successful brace-repair parse only ever returns a decoder value. -/
theorem safe_json_parse_some {loads : String → Option Jv} {text : String}
    {j : Jv} (h : safe_json_parse loads text = some j) :
    ∃ s, loads s = some j := by
  unfold safe_json_parse at h
  split_ifs at h
  split at h
  · exact ⟨text, by injection h with h2; rw [← h2]; assumption⟩
  · split at h
    · split_ifs at h
      exact ⟨_, h⟩
    · cases h

/-- Dict access succeeds on every present key. -/
theorem jGet_ok {j : Jv} {k : String}
    (hkeys : hasSummaryKeys j = true)
    (hk : k ∈ ["performance_summary", "improvement_plan", "motivation_note",
      "confidence_note"]) : ∃ v, jGet j k = .ok v := by
  unfold hasSummaryKeys at hkeys
  cases j with
  | obj fields =>
    simp only [List.all_eq_true] at hkeys
    have hany := hkeys k hk
    have hmem : ∃ p ∈ fields, p.1 = k := by
      simpa [List.any_eq_true] using hany
    obtain ⟨p, hp, hpk⟩ := hmem
    simp only [jGet]
    cases hfind : fields.reverse.find? (fun q => decide (q.1 = k)) with
    | none =>
      exfalso
      have hnone := List.find?_eq_none.mp hfind p (List.mem_reverse.mpr hp)
      simp [hpk] at hnone
    | some q => exact ⟨q.2, rfl⟩
  | null => cases hkeys
  | bool b => cases hkeys
  | num q => cases hkeys
  | str s => cases hkeys
  | arr l => cases hkeys

/-- The output row of a record carrying the three subscripted columns
and a summary with all four narrative keys always shapes. -/
theorem summaryRow_ok (dumps : Jv → String) (provider : String) (r : Record)
    {j : Jv} (hkeys : hasSummaryKeys j = true)
    (hrow : ∀ k ∈ (["student_id", "grade", "subject"] : List String),
      ∃ v, getR r k = .ok v) :
    ∃ out, summaryRow dumps provider r j = .ok out := by
  obtain ⟨s1, hs1⟩ := hrow "student_id" (by simp)
  obtain ⟨s2, hs2⟩ := hrow "grade" (by simp)
  obtain ⟨s3, hs3⟩ := hrow "subject" (by simp)
  obtain ⟨v1, h1⟩ := @jGet_ok j "performance_summary" hkeys (by simp)
  obtain ⟨v2, h2⟩ := @jGet_ok j "improvement_plan" hkeys (by simp)
  obtain ⟨v3, h3⟩ := @jGet_ok j "motivation_note" hkeys (by simp)
  obtain ⟨v4, h4⟩ := @jGet_ok j "confidence_note" hkeys (by simp)
  unfold summaryRow
  rw [hs1, hs2, hs3, h1, h2, h3, h4]
  exact ⟨_, rfl⟩

/-- With a supported provider the retry loop never raises, and every
produced value comes from the decoder. -/
theorem retryLoop_ok (loads : String → Option Jv)
    (call : ℕ → Except String String)
    (hcall : ∀ i, ∃ raw, call i = .ok raw) :
    ∀ n i, ∃ o, retryLoop loads call n i = .ok o ∧
      ∀ p, o = some p → ∃ s, loads s = some p := by
  intro n
  induction n with
  | zero =>
    intro i
    exact ⟨none, rfl, fun p hp => by cases hp⟩
  | succ m ih =>
    intro i
    obtain ⟨raw, hraw⟩ := hcall i
    cases hparse : safe_json_parse loads raw with
    | none =>
      have hstep : retryLoop loads call (m + 1) i =
          retryLoop loads call m (i + 1) := by
        conv_lhs => unfold retryLoop
        simp only [hraw, hparse]
      rw [hstep]
      exact ih (i + 1)
    | some parsed =>
      by_cases ht : pyTruthy parsed = true
      · have hstep : retryLoop loads call (m + 1) i = .ok (some parsed) := by
          conv_lhs => unfold retryLoop
          simp only [hraw, hparse]
          rw [if_pos ht]
        rw [hstep]
        refine ⟨some parsed, rfl, ?_⟩
        intro p hp
        obtain ⟨s, hs⟩ := safe_json_parse_some hparse
        injection hp with hp
        exact ⟨s, by rw [hs, hp]⟩
      · have hstep : retryLoop loads call (m + 1) i =
            retryLoop loads call m (i + 1) := by
          conv_lhs => unfold retryLoop
          simp only [hraw, hparse]
          rw [if_neg ht]
        rw [hstep]
        exact ih (i + 1)

/-- Under a supported provider and a row whose prompt builds,
`generate_summary` never raises and its value has the four narrative
keys whenever the decoder guarantees them (the canned fallback has them
too). -/
theorem generate_summary_ok (provider : String)
    (backend : ℕ → String → String) (loads : String → Option Jv) (r : Record)
    (hp : LLM_PROVIDERS.contains provider = true)
    (hbp : ∃ p, build_prompt r = .ok p)
    (hloads : ∀ s j, loads s = some j → hasSummaryKeys j = true) :
    ∃ jv, generate_summary provider backend loads r = .ok jv ∧
      hasSummaryKeys jv = true := by
  obtain ⟨prompt, hprompt⟩ := hbp
  have hcall : ∀ i, ∃ raw,
      call_llm provider backend i prompt = .ok raw := by
    intro i
    unfold call_llm
    rw [if_pos hp]
    exact ⟨_, rfl⟩
  obtain ⟨o, ho, hfrom⟩ := retryLoop_ok loads _ hcall MAX_RETRIES 0
  unfold generate_summary
  simp only [hprompt]
  rw [ho]
  cases o with
  | none => exact ⟨FALLBACK_SUMMARY, rfl, rfl⟩
  | some p =>
    obtain ⟨s, hs⟩ := hfrom p rfl
    exact ⟨p, rfl, hloads s p hs⟩

/-- A loop whose body always succeeds returns one output per input. -/
theorem forRows_ok {α β : Type} (f : α → Except String β) (l : List α)
    (h : ∀ a ∈ l, ∃ b, f a = .ok b) :
    ∃ bs, forRows f l = .ok bs ∧ bs.length = l.length := by
  induction l with
  | nil => exact ⟨[], rfl, rfl⟩
  | cons a t ih =>
    obtain ⟨b, hb⟩ := h a (List.mem_cons_self a t)
    obtain ⟨bs, hbs, hlen⟩ := ih (fun x hx => h x (List.mem_cons_of_mem a hx))
    refine ⟨b :: bs, ?_, by simp [hlen]⟩
    unfold forRows
    rw [hb, hbs]

/-- C10: on an insight table whose header carries the ten subscripted
columns and whose kept rows cover the header (as gspread's rectangular
`get_all_values` guarantees — a narrower table makes the loop raise
`KeyError` instead), `run_llm` narrates exactly the first 20 insight
rows — one output row per kept insight row, rows beyond the 20th never
influencing the output — and fully overwrites `subject_summaries` with
the result regardless of that table's prior content. -/
theorem C10_run_llm_first20 (provider : String)
    (backend : ℕ → String → String) (loads : String → Option Jv)
    (dumps : Jv → String) (store : Store) (df0 : DF)
    (hread : read_table store "subject_insights" = .ok df0)
    (hne : df0.rows ≠ [])
    (hp : LLM_PROVIDERS.contains provider = true)
    (hloads : ∀ s j, loads s = some j → hasSummaryKeys j = true)
    (hkeys0 : ∀ k ∈ summaryInputKeys, k ∈ df0.columns)
    (hrect : ∀ r ∈ df0.rows.take 20, df0.columns.length ≤ r.length) :
    ∃ outRows,
      run_llm provider backend loads dumps store =
        .ok (write_table store "subject_summaries" ⟨summaryCols, outRows⟩) ∧
      outRows.length = min df0.rows.length 20 ∧
      ∀ (store1 : Store) (df1 : DF),
        read_table store1 "subject_insights" = .ok df1 →
        df1.columns = df0.columns →
        df1.rows.take 20 = df0.rows.take 20 →
        run_llm provider backend loads dumps store1 =
          .ok (write_table store1 "subject_summaries" ⟨summaryCols, outRows⟩) := by
  have hrow : ∀ row ∈ df0.rows.take 20, ∃ out,
      narrateRow provider backend loads dumps df0.columns row = .ok out := by
    intro row hrowmem
    have hgr : ∀ k ∈ summaryInputKeys,
        ∃ v, getR (recOf df0.columns row) k = .ok v :=
      fun k hk => getR_recOf_ok (hkeys0 k hk) (hrect row hrowmem)
    have hbp : ∃ p, build_prompt (recOf df0.columns row) = .ok p :=
      build_prompt_ok (fun k hk => hgr k (List.mem_cons_of_mem _ hk))
    have hsub3 : ∀ k ∈ (["student_id", "grade", "subject"] : List String),
        k ∈ summaryInputKeys := by
      intro k hk
      simp only [List.mem_cons, List.not_mem_nil, or_false] at hk
      rcases hk with rfl | rfl | rfl <;> simp [summaryInputKeys, promptKeys]
    obtain ⟨jv, hjv, hkeys⟩ := generate_summary_ok provider backend loads
      (recOf df0.columns row) hp hbp hloads
    obtain ⟨out, hout⟩ := summaryRow_ok dumps provider (recOf df0.columns row)
      hkeys (fun k hk => hgr k (hsub3 k hk))
    refine ⟨out, ?_⟩
    unfold narrateRow
    simp only [hjv]
    exact hout
  obtain ⟨outRows, hfor, hlen⟩ :=
    forRows_ok (narrateRow provider backend loads dumps df0.columns)
      (df0.rows.take 20) hrow
  have hkeptne : (df0.rows.take 20).isEmpty = false := by
    cases hrows : df0.rows with
    | nil => exact absurd hrows hne
    | cons r t => simp [List.take]
  have houtne : outRows.isEmpty = false := by
    cases houtr : outRows with
    | nil =>
      rw [houtr] at hlen
      cases hrows : df0.rows with
      | nil => exact absurd hrows hne
      | cons r t =>
        rw [hrows] at hlen
        simp [List.take] at hlen
    | cons b bs => simp
  refine ⟨outRows, ?_, ?_, ?_⟩
  · unfold run_llm
    simp only [hread]
    rw [if_neg (by simp [hkeptne])]
    simp only [hfor]
    rw [if_neg (by simp [houtne])]
  · rw [hlen, List.length_take, Nat.min_comm]
  · intro store1 df1 hread1 hcols1 htake1
    unfold run_llm
    simp only [hread1]
    rw [if_neg (by simp [htake1, hkeptne])]
    rw [hcols1, htake1]
    simp only [hfor]
    rw [if_neg (by simp [houtne])]

/-- Header of the concrete insights table exercising `run_llm`: all
ten subscripted columns. -/
def c10Header : List String :=
  ["student_id", "grade", "subject", "primary_issue", "secondary_issue",
   "root_cause_category", "academic_risk_level", "urgency_level",
   "recommended_focus_area", "teacher_intervention_needed"]

/-- Its single data row. -/
def c10Row : List String :=
  ["S1", "8", "Math", "accuracy", "consistency", "conceptual", "medium",
   "medium", "fundamentals", "True"]

/-- Concrete insights table for exercising `run_llm`. -/
def c10Store : Store :=
  fun n =>
    if n = "subject_insights" then some [c10Header, c10Row]
    else none

theorem C10_run_llm_first20_witness :
    ∃ outRows,
      run_llm "ollama" (fun _ _ => "") (fun _ => none) (fun _ => "") c10Store =
        .ok (write_table c10Store "subject_summaries" ⟨summaryCols, outRows⟩) ∧
      outRows.length =
        min ([c10Row.map some] : List (List Cell)).length 20 ∧
      ∀ (store1 : Store) (df1 : DF),
        read_table store1 "subject_insights" = .ok df1 →
        df1.columns = c10Header →
        df1.rows.take 20 = ([c10Row.map some] : List (List Cell)).take 20 →
        run_llm "ollama" (fun _ _ => "") (fun _ => none) (fun _ => "") store1 =
          .ok (write_table store1 "subject_summaries" ⟨summaryCols, outRows⟩) :=
  C10_run_llm_first20 "ollama" (fun _ _ => "") (fun _ => none) (fun _ => "")
    c10Store ⟨c10Header, [c10Row.map some]⟩
    rfl (List.cons_ne_nil _ _) rfl (fun _ _ h => nomatch h)
    (by decide) (by decide)

/-! ### Claims C4 and C5 -/

/-- C4: `risk_flag(avg, trend)` is "high" exactly when the average is
below 60 and the trend is "declining", "medium" exactly when precisely
one of the two conditions holds, and "low" exactly when neither holds;
the four concrete spec values follow. -/
theorem C4_risk_flag_cases :
    (∀ (avg : ℚ) (trend : String),
      (risk_flag avg trend = "high" ↔ (avg < 60 ∧ trend = "declining")) ∧
      (risk_flag avg trend = "medium" ↔
        ((avg < 60 ∧ trend ≠ "declining") ∨ (¬ avg < 60 ∧ trend = "declining"))) ∧
      (risk_flag avg trend = "low" ↔ (¬ avg < 60 ∧ trend ≠ "declining"))) ∧
    risk_flag 55 "declining" = "high" ∧
    risk_flag 55 "stable" = "medium" ∧
    risk_flag 90 "declining" = "medium" ∧
    risk_flag 90 "stable" = "low" := by
  refine ⟨fun avg trend => ?_, by decide, by decide, by decide, by decide⟩
  by_cases ha : avg < 60 <;> by_cases ht : trend = "declining" <;>
    simp [risk_flag, ha, ht]

/-- C5: every score sequence with fewer than two entries yields
trend "insufficient_data", velocity 0, consistency 1 and
volatility "unknown". -/
theorem C5_short_series_defaults (scores : List ℚ) (h : scores.length < 2) :
    calculate_trend scores = "insufficient_data" ∧
    improvement_velocity scores = 0 ∧
    consistency_score scores = 1 ∧
    volatility_level scores = "unknown" := by
  refine ⟨?_, ?_, ?_, ?_⟩
  · rw [calculate_trend, if_pos h]
  · rw [improvement_velocity, if_pos h]
  · rw [consistency_score, if_pos h]
  · rw [volatility_level, if_pos h]

/-- Witness for C5 at the singleton series `[42]`. -/
theorem C5_short_series_defaults_witness :
    ([(42 : ℚ)].length < 2) ∧
    (calculate_trend [(42 : ℚ)] = "insufficient_data" ∧
     improvement_velocity [(42 : ℚ)] = 0 ∧
     consistency_score [(42 : ℚ)] = 1 ∧
     volatility_level [(42 : ℚ)] = "unknown") :=
  ⟨by decide, C5_short_series_defaults [(42 : ℚ)] (by decide)⟩

end AIStudent
